import Mathlib

/-!
Shallow embedding of the analytics core of `transform/build_analytics.py`
(warframe-market-collector).

Modelling conventions, matched to the pandas source:
* a pandas float cell is an `Option ℚ` — `none` is NaN (missing), `some x` a number;
  float arithmetic is modelled exactly over ℚ;
* `pd.to_datetime(..., utc=True, errors="coerce").dt.date` is abstracted as an
  already-parsed optional UTC day number `Option ℤ` (`none` = unparseable timestamp);
* `groupby(keys, as_index=False).agg(...)` with the default `sort=True, dropna=True`
  is modelled by `groupBy`: the sorted list of distinct keys (rows whose key
  contains NaN are dropped before keying), one output row per key, aggregating the
  sub-list of rows having that key;
* pandas string sorting is code-point lexicographic; `strLtL` implements the same
  order on `List Char` by structural recursion (the core `String` order does not
  reduce in the kernel, so we carry our own);
* `.sum()` of a group skips NaN (all-NaN sums to 0), `.min()`/`.median()` skip NaN
  and yield NaN on an all-NaN group — see `sumSkipNA`, `minQ`, `omedian`;
* `Series.round()` rounds half to even (numpy), see `roundHalfEven`;
* quantities (`quantity_for_set`, cast with `astype(int)`) are modelled as ℕ;
  the data model documents them as integers ≥ 1.
-/

/-! Missing-value (NaN) arithmetic over `Option ℚ` -/

/-- Subtraction propagating missing values, as pandas float subtraction with NaN. -/
def oSub (a b : Option ℚ) : Option ℚ :=
  match a, b with
  | some x, some y => some (x - y)
  | _, _ => none

/-- Multiplication propagating missing values. -/
def oMul (a b : Option ℚ) : Option ℚ :=
  match a, b with
  | some x, some y => some (x * y)
  | _, _ => none

/-- Sum of a pandas column inside a group: NaN entries are skipped
(`GroupBy.sum` default `skipna=True, min_count=0`); an all-NaN group sums to 0. -/
def sumSkipNA (l : List (Option ℚ)) : ℚ :=
  (l.filterMap id).sum

/-- Minimum of a list of rationals, `none` on the empty list
(`GroupBy.min` over a column with no non-NaN entry yields NaN). -/
def minQ : List ℚ → Option ℚ
  | [] => none
  | x :: xs => some (xs.foldl min x)

/-- Maximum with a default for the empty list (used for `np.nanmax` fallbacks). -/
def maxD : List ℚ → ℚ → ℚ
  | [], d => d
  | x :: xs, _ => xs.foldl max x

/-- Median of a list of rationals in the pandas sense: sort ascending, take the middle
element (odd length) or the mean of the two middle elements (even length). -/
def medianQ (l : List ℚ) : Option ℚ :=
  let s := l.insertionSort (· ≤ ·)
  let n := s.length
  if n = 0 then none
  else if n % 2 = 1 then some (s.getD (n / 2) 0)
  else some ((s.getD (n / 2 - 1) 0 + s.getD (n / 2) 0) / 2)

/-- Median of a pandas float column: NaN entries are excluded, an all-NaN column
yields NaN. -/
def omedian (l : List (Option ℚ)) : Option ℚ :=
  medianQ (l.filterMap id)

/-- Round half to even, as `numpy.round` / `Series.round()` on floats. -/
def roundHalfEven (x : ℚ) : ℤ :=
  let f := ⌊x⌋
  let r := x - (f : ℚ)
  if r < 1 / 2 then f
  else if 1 / 2 < r then f + 1
  else if f % 2 = 0 then f else f + 1

/-! Code-point string order (pandas key sorting) -/

/-- Strict code-point lexicographic order on character lists, by structural
recursion so it evaluates in the kernel. -/
def strLtL : List Char → List Char → Bool
  | [], [] => false
  | [], _ :: _ => true
  | _ :: _, [] => false
  | c :: cs, d :: ds =>
    if c < d then true
    else if d < c then false
    else strLtL cs ds

/-- Strict code-point order on strings. -/
def strLt (a b : String) : Bool := strLtL a.data b.data

theorem strLtL_irrefl : ∀ l, strLtL l l = false
  | [] => rfl
  | c :: cs => by simp [strLtL, strLtL_irrefl cs]

theorem strLtL_trans : ∀ a b c, strLtL a b = true → strLtL b c = true → strLtL a c = true
  | [], [], _, h1, _ => by cases h1
  | [], _ :: _, [], _, h2 => by cases h2
  | [], _ :: _, _ :: _, _, _ => rfl
  | _ :: _, [], _, h1, _ => by cases h1
  | _ :: _, _ :: _, [], _, h2 => by cases h2
  | a :: as, b :: bs, c :: cs, h1, h2 => by
    simp only [strLtL] at h1 h2 ⊢
    rcases lt_trichotomy a b with hab | hab | hab
    · rcases lt_trichotomy b c with hbc | hbc | hbc
      · simp [lt_trans hab hbc]
      · subst hbc; simp [hab]
      · simp [lt_asymm hbc, hbc] at h2
    · subst hab
      rw [if_neg (lt_irrefl a), if_neg (lt_irrefl a)] at h1
      rcases lt_trichotomy a c with hac | hac | hac
      · simp [hac]
      · subst hac
        rw [if_neg (lt_irrefl a), if_neg (lt_irrefl a)] at h2 ⊢
        exact strLtL_trans _ _ _ h1 h2
      · simp [lt_asymm hac, hac] at h2
    · simp [lt_asymm hab, hab] at h1

theorem strLtL_eq_of_not : ∀ a b, strLtL a b = false → strLtL b a = false → a = b
  | [], [], _, _ => rfl
  | [], _ :: _, h1, _ => by cases h1
  | _ :: _, [], _, h2 => by cases h2
  | a :: as, b :: bs, h1, h2 => by
    simp only [strLtL] at h1 h2
    rcases lt_trichotomy a b with hab | hab | hab
    · simp [hab] at h1
    · subst hab
      simp only [lt_irrefl, if_false] at h1 h2
      rw [strLtL_eq_of_not as bs h1 h2]
    · simp [hab, lt_asymm hab] at h2

theorem strLt_trans {a b c : String} (h1 : strLt a b = true) (h2 : strLt b c = true) :
    strLt a c = true :=
  strLtL_trans _ _ _ h1 h2

theorem strLt_eq_of_not {a b : String} (h1 : strLt a b = false) (h2 : strLt b a = false) :
    a = b := by
  cases a; cases b
  exact congrArg String.mk (strLtL_eq_of_not _ _ h1 h2)

theorem strLt_irrefl (a : String) : strLt a a = false := strLtL_irrefl _

theorem strLt_asymm {a b : String} (h : strLt a b = true) : strLt b a = false := by
  by_contra hba
  have := strLt_trans h (by simpa using Bool.of_not_eq_false hba)
  simp [strLt_irrefl] at this

/-! Group-key orders (lexicographic on the groupby key columns) -/

/-- Order on (set_url, platform)-style keys. -/
def keyLe2 (a b : String × String) : Prop :=
  strLt a.1 b.1 = true ∨ (a.1 = b.1 ∧ (strLt a.2 b.2 = true ∨ a.2 = b.2))

/-- Order on (item, platform, date)-style keys. -/
def keyLe3z (a b : String × String × ℤ) : Prop :=
  strLt a.1 b.1 = true ∨
    (a.1 = b.1 ∧ (strLt a.2.1 b.2.1 = true ∨ (a.2.1 = b.2.1 ∧ a.2.2 ≤ b.2.2)))

/-- Order on (set, platform, part)-style keys. -/
def keyLe3s (a b : String × String × String) : Prop :=
  strLt a.1 b.1 = true ∨
    (a.1 = b.1 ∧ (strLt a.2.1 b.2.1 = true ∨
      (a.2.1 = b.2.1 ∧ (strLt a.2.2 b.2.2 = true ∨ a.2.2 = b.2.2))))

instance : DecidableRel keyLe2 := fun a b => by unfold keyLe2; infer_instance
instance : DecidableRel keyLe3z := fun a b => by unfold keyLe3z; infer_instance
instance : DecidableRel keyLe3s := fun a b => by unfold keyLe3s; infer_instance

instance : IsTotal (String × String × String) keyLe3s where
  total a b := by
    unfold keyLe3s
    rcases h1 : strLt a.1 b.1 with _ | _
    · rcases h1' : strLt b.1 a.1 with _ | _
      · have e1 := strLt_eq_of_not h1 h1'
        rcases h2 : strLt a.2.1 b.2.1 with _ | _
        · rcases h2' : strLt b.2.1 a.2.1 with _ | _
          · have e2 := strLt_eq_of_not h2 h2'
            rcases h3 : strLt a.2.2 b.2.2 with _ | _
            · rcases h3' : strLt b.2.2 a.2.2 with _ | _
              · exact Or.inl (Or.inr ⟨e1, Or.inr ⟨e2, Or.inr (strLt_eq_of_not h3 h3')⟩⟩)
              · exact Or.inr (Or.inr ⟨e1.symm, Or.inr ⟨e2.symm, Or.inl rfl⟩⟩)
            · exact Or.inl (Or.inr ⟨e1, Or.inr ⟨e2, Or.inl rfl⟩⟩)
          · exact Or.inr (Or.inr ⟨e1.symm, Or.inl rfl⟩)
        · exact Or.inl (Or.inr ⟨e1, Or.inl rfl⟩)
      · exact Or.inr (Or.inl rfl)
    · exact Or.inl (Or.inl rfl)

instance : IsTrans (String × String × String) keyLe3s where
  trans a b c hab hbc := by
    unfold keyLe3s at *
    rcases hab with h1 | ⟨e1, hab⟩
    · rcases hbc with h2 | ⟨e2, _⟩
      · exact Or.inl (strLt_trans h1 h2)
      · exact Or.inl (e2 ▸ h1)
    · rcases hbc with h2 | ⟨e2, hbc⟩
      · exact Or.inl (e1 ▸ h2)
      · refine Or.inr ⟨e1.trans e2, ?_⟩
        rcases hab with h1 | ⟨f1, hab⟩
        · rcases hbc with h2 | ⟨f2, _⟩
          · exact Or.inl (strLt_trans h1 h2)
          · exact Or.inl (f2 ▸ h1)
        · rcases hbc with h2 | ⟨f2, hbc⟩
          · exact Or.inl (f1 ▸ h2)
          · refine Or.inr ⟨f1.trans f2, ?_⟩
            rcases hab with h1 | g1
            · rcases hbc with h2 | g2
              · exact Or.inl (strLt_trans h1 h2)
              · exact Or.inl (g2 ▸ h1)
            · rcases hbc with h2 | g2
              · exact Or.inl (g1 ▸ h2)
              · exact Or.inr (g1.trans g2)

instance : IsAntisymm (String × String × String) keyLe3s where
  antisymm a b hab hba := by
    unfold keyLe3s at *
    rcases hab with h1 | ⟨e1, hab⟩
    · rcases hba with h1' | ⟨e1', _⟩
      · exact absurd (strLt_asymm h1) (by simp [h1'])
      · exact absurd h1 (by simp [e1', strLt_irrefl])
    · rcases hba with h1' | ⟨_, hba⟩
      · exact absurd h1' (by simp [e1, strLt_irrefl])
      · rcases hab with h2 | ⟨e2, hab⟩
        · rcases hba with h2' | ⟨e2', _⟩
          · exact absurd (strLt_asymm h2) (by simp [h2'])
          · exact absurd h2 (by simp [e2', strLt_irrefl])
        · rcases hba with h2' | ⟨_, hba⟩
          · exact absurd h2' (by simp [e2, strLt_irrefl])
          · rcases hab with h3 | e3
            · rcases hba with h3' | e3'
              · exact absurd (strLt_asymm h3) (by simp [h3'])
              · exact absurd h3 (by simp [e3', strLt_irrefl])
            · have : a.1 = b.1 ∧ a.2.1 = b.2.1 ∧ a.2.2 = b.2.2 := ⟨e1, e2, e3⟩
              obtain ⟨x1, x2, x3⟩ := this
              exact Prod.ext x1 (Prod.ext x2 x3)

/-! A sorted groupby, as pandas `groupby(keys, as_index=False, sort=True)` -/

/-- Sorted list of the distinct keys occurring in a groupby input. -/
def sortKeys {K : Type} [DecidableEq K] (r : K → K → Prop) [DecidableRel r]
    (ks : List K) : List K :=
  ks.dedup.insertionSort r

/-- Sub-list of rows carrying a given group key. -/
def grp {α K : Type} [DecidableEq K] (key : α → K) (rows : List α) (k : K) : List α :=
  rows.filter fun r => decide (key r = k)

/-- One aggregated output row per distinct key, keys in sorted order. -/
def groupBy {α β K : Type} [DecidableEq K] (r : K → K → Prop) [DecidableRel r]
    (key : α → K) (agg : K → List α → β) (rows : List α) : List β :=
  (sortKeys r (rows.map key)).map fun k => agg k (grp key rows k)

theorem sortKeys_perm_dedup {K : Type} [DecidableEq K] (r : K → K → Prop) [DecidableRel r]
    (ks : List K) : (sortKeys r ks).Perm ks.dedup :=
  List.perm_insertionSort r ks.dedup

theorem sortKeys_nodup {K : Type} [DecidableEq K] (r : K → K → Prop) [DecidableRel r]
    (ks : List K) : (sortKeys r ks).Nodup :=
  ((sortKeys_perm_dedup r ks).symm).nodup (List.nodup_dedup ks)

theorem mem_sortKeys {K : Type} [DecidableEq K] (r : K → K → Prop) [DecidableRel r]
    {ks : List K} {k : K} : k ∈ sortKeys r ks ↔ k ∈ ks := by
  rw [(sortKeys_perm_dedup r ks).mem_iff, List.mem_dedup]

theorem sortKeys_eq_of_perm {K : Type} [DecidableEq K] (r : K → K → Prop) [DecidableRel r]
    [IsTotal K r] [IsTrans K r] [IsAntisymm K r] {ks ks' : List K} (h : ks.Perm ks') :
    sortKeys r ks = sortKeys r ks' := by
  refine List.eq_of_perm_of_sorted ?_ (List.sorted_insertionSort r _) (List.sorted_insertionSort r _)
  exact (sortKeys_perm_dedup r ks).trans (h.dedup.trans (sortKeys_perm_dedup r ks').symm)

theorem sortKeys_idem {K : Type} [DecidableEq K] (r : K → K → Prop) [DecidableRel r]
    [IsTotal K r] [IsTrans K r] (ks : List K) :
    sortKeys r (sortKeys r ks) = sortKeys r ks := by
  show ((sortKeys r ks).dedup).insertionSort r = sortKeys r ks
  rw [List.Nodup.dedup (sortKeys_nodup r ks)]
  exact List.Sorted.insertionSort_eq (List.sorted_insertionSort r _)

theorem groupBy_map_key {α β K : Type} [DecidableEq K] (r : K → K → Prop) [DecidableRel r]
    (key : α → K) (agg : K → List α → β) (rows : List α) (keyOf : β → K)
    (h : ∀ k g, keyOf (agg k g) = k) :
    (groupBy r key agg rows).map keyOf = sortKeys r (rows.map key) := by
  unfold groupBy
  rw [List.map_map]
  calc (sortKeys r (rows.map key)).map (keyOf ∘ fun k => agg k (grp key rows k))
      = (sortKeys r (rows.map key)).map id := List.map_congr_left (fun k _ => h _ _)
    _ = sortKeys r (rows.map key) := List.map_id _

theorem mem_groupBy {α β K : Type} [DecidableEq K] (r : K → K → Prop) [DecidableRel r]
    (key : α → K) (agg : K → List α → β) (rows : List α) {b : β} :
    b ∈ groupBy r key agg rows ↔ ∃ k ∈ rows.map key, b = agg k (grp key rows k) := by
  unfold groupBy
  rw [List.mem_map]
  constructor
  · rintro ⟨k, hk, h⟩
    exact ⟨k, (mem_sortKeys r).mp hk, h.symm⟩
  · rintro ⟨k, hk, h⟩
    exact ⟨k, (mem_sortKeys r).mpr hk, h.symm⟩

theorem groupBy_eq_of_perm {α β K : Type} [DecidableEq K] (r : K → K → Prop) [DecidableRel r]
    [IsTotal K r] [IsTrans K r] [IsAntisymm K r]
    (key : α → K) (agg : K → List α → β) {rows rows' : List α}
    (hagg : ∀ k {g g' : List α}, g.Perm g' → agg k g = agg k g')
    (h : rows.Perm rows') :
    groupBy r key agg rows = groupBy r key agg rows' := by
  unfold groupBy
  rw [sortKeys_eq_of_perm r (h.map key)]
  exact List.map_congr_left fun k _ => hagg k (h.filter _)

theorem grp_eq_singleton {α K : Type} [DecidableEq K] (key : α → K) {rows : List α}
    (hnd : (rows.map key).Nodup) {x : α} (hx : x ∈ rows) :
    grp key rows (key x) = [x] := by
  induction rows with
  | nil => cases hx
  | cons a l ih =>
    simp only [List.map_cons, List.nodup_cons] at hnd
    rcases List.mem_cons.mp hx with heq | hx'
    · have htail : List.filter (fun r => decide (key r = key x)) l = [] := by
        rw [List.filter_eq_nil_iff]
        intro b hb hkb
        exact hnd.1 (heq ▸ List.mem_map.mpr ⟨b, hb, decide_eq_true_eq.mp hkb⟩)
      unfold grp
      rw [List.filter_cons_of_pos (by simp [heq]), htail, heq]
    · have hne : ¬ key a = key x := by
        intro hk
        exact hnd.1 (hk ▸ List.mem_map.mpr ⟨x, hx', rfl⟩)
      unfold grp at ih ⊢
      rw [List.filter_cons_of_neg (by simpa using hne)]
      exact ih hnd.2 hx'

/-! String normalization helpers (`normalize_str`, `str.contains`) -/

/-- Model of `Series.str.lower()` (ASCII case mapping). -/
def lowerStr (s : String) : String := ⟨s.data.map Char.toLower⟩

/-- Decides whether `pat` is a prefix of `s` (code-point equality). -/
def isPrefOf : List Char → List Char → Bool
  | [], _ => true
  | _ :: _, [] => false
  | c :: cs, d :: ds => c = d && isPrefOf cs ds

/-- Substring test on character lists, structural recursion on the haystack. -/
def containsSub (pat : List Char) : List Char → Bool
  | [] => pat.isEmpty
  | c :: t => isPrefOf pat (c :: t) || containsSub pat t

/-- Model of `Series.str.contains(pat)` for a literal pattern (here `"prime_set"`,
which has no regex metacharacters). -/
def strContains (s pat : String) : Bool := containsSub pat.data s.data

/-! Data model

`OrderRow` is a raw order-book snapshot row (collector output), `CompCsvRow` a raw
set-components row. Optional string cells model CSV NaN; `normalize_str` turns a
NaN key cell into the literal string "nan" via `astype(str)` (so `dropna` on those
columns afterwards drops nothing), fills platform NaN with "pc", and lowercases. -/

/-- Raw order-book snapshot row (columns of `data/*/orderbook_*.csv`). `ts_date` is
the UTC calendar date parsed from the `ts` column, `none` when unparseable. -/
structure OrderRow where
  item_url : Option String
  platform : Option String
  ts_date : Option ℤ
  top_buy_avg : Option ℚ
  top_sell_avg : Option ℚ
  buy_count : Option ℚ
  sell_count : Option ℚ
deriving DecidableEq

/-- Order-book row after `normalize_str` and timestamp parsing, keyed and ready for
the daily groupby. -/
structure ObsRow where
  item : String
  plat : String
  date : ℤ
  buy : Option ℚ
  sell : Option ℚ
  bdep : Option ℚ
  sdep : Option ℚ
deriving DecidableEq

/-- Daily summary row (output schema of `daily_medians_orderbook`). -/
structure DailyRow where
  item : String
  plat : String
  date : ℤ
  buy_med : Option ℚ
  sell_med : Option ℚ
  buy_depth_med : Option ℚ
  sell_depth_med : Option ℚ
deriving DecidableEq

/-- Raw set-components row (columns of `data/*/set_components_*.csv`). -/
structure CompCsvRow where
  set_url : Option String
  platform : Option String
  part_url : Option String
  quantity_for_set : Option ℕ
deriving DecidableEq

/-- Components row at the point of the de-duplication groupby (after
`normalize_str` and the quantity fillna/astype at lines 124-132). -/
structure CompRaw where
  set_url : Option String
  platform : Option String
  part_url : Option String
  quantity_for_set : ℕ
deriving DecidableEq

/-- Normalized components row with total key columns. -/
structure CompNorm where
  set_url : String
  plat : String
  part_url : String
  qty : ℕ
deriving DecidableEq

/-- Row of `comp_prices`: a components row left-merged with the part daily rows. -/
structure CompPriceRow where
  set_url : String
  plat : String
  part_url : String
  qty : ℕ
  date : Option ℤ
  buy_med : Option ℚ
  sell_med : Option ℚ
  sell_depth_med : Option ℚ
deriving DecidableEq

/-- Row of `set_costs`: per set/platform/date aggregation of part costs. -/
structure SetCostRow where
  set_url : String
  plat : String
  date : ℤ
  parts_cost_buy : ℚ
  min_part_eff_depth : Option ℚ
deriving DecidableEq

/-- Row of `sets_daily` (the SetDailyRecord of the spec, pre-KPI-normalization). -/
structure SetsDailyRow where
  set_url : String
  plat : String
  date : ℤ
  buy_med : Option ℚ
  sell_med : Option ℚ
  buy_depth_med : Option ℚ
  sell_depth_med : Option ℚ
  parts_cost_buy : Option ℚ
  min_part_eff_depth : Option ℚ
  margin : Option ℚ
  roi_pct : Option ℚ
deriving DecidableEq

/-- Row of `parts_latest_by_set.csv` (the PartLatestRecord of the spec).
`latest_date_part` is the `date` join column of the asof merge, i.e. the latest
date of the owning set, as renamed at line 333. -/
structure PartLatestRow where
  set_url : String
  plat : String
  part_url : String
  qty : ℕ
  unit_cost : Option ℚ
  buy_med : Option ℚ
  sell_med : Option ℚ
  sdep : Option ℚ
  latest_date_part : ℤ
  source : String
deriving DecidableEq

/-- Row of the reconciliation frame `cmp` (lines 365-367). -/
structure CmpRow where
  set_url : String
  plat : String
  parts_cost_buy : Option ℚ
  snapshot_parts_cost : Option ℚ
  abs_diff : Option ℚ
  rel_diff : Option ℚ
deriving DecidableEq

/-! Daily Aggregator (`daily_medians_orderbook`, lines 79-106) -/

/-- Normalization of one raw order-book row: `normalize_str(platform, "pc")`,
`normalize_str(item_url)`, timestamp parsing; rows with unparseable timestamps
get a NaN date and are dropped by the subsequent groupby. -/
def prepObs (r : OrderRow) : Option ObsRow :=
  r.ts_date.map fun d =>
    ⟨lowerStr (r.item_url.getD "nan"), lowerStr (r.platform.getD "pc"), d,
      r.top_buy_avg, r.top_sell_avg, r.buy_count, r.sell_count⟩

/-- Groupby key of the daily aggregation: (item_url, platform, date). -/
def oKey (o : ObsRow) : String × String × ℤ := (o.item, o.plat, o.date)

/-- Key columns of a daily summary row. -/
def dKey (d : DailyRow) : String × String × ℤ := (d.item, d.plat, d.date)

/-- Aggregation of one daily group: the four medians of lines 99-102. -/
def dailyAgg (k : String × String × ℤ) (g : List ObsRow) : DailyRow :=
  ⟨k.1, k.2.1, k.2.2,
    omedian (g.map (·.buy)), omedian (g.map (·.sell)),
    omedian (g.map (·.bdep)), omedian (g.map (·.sdep))⟩

/-- Daily Aggregator: collapse raw order-book snapshots to one row per
(item, platform, UTC date), each numeric field the median of its non-missing
values in the group (lines 98-103). -/
def daily_medians_orderbook (rows : List OrderRow) : List DailyRow :=
  groupBy keyLe3z oKey dailyAgg (rows.filterMap prepObs)

/-! Composition Resolver (lines 124-142) -/

/-- Per-row normalization of the components table (lines 127-132): lowercase keys,
NaN keys become the string "nan", quantity `fillna(1).astype(int)`. -/
def prepComp (r : CompCsvRow) : CompRaw :=
  ⟨some (lowerStr (r.set_url.getD "nan")), some (lowerStr (r.platform.getD "pc")),
    some (lowerStr (r.part_url.getD "nan")), r.quantity_for_set.getD 1⟩

/-- Keyed components rows: `dropna(subset=[set_url, part_url])` plus the groupby
dropping rows whose platform key is NaN. -/
def compKeyed (rows : List CompRaw) : List CompNorm :=
  rows.filterMap fun r =>
    match r.set_url, r.platform, r.part_url with
    | some s, some p, some q => some ⟨s, p, q, r.quantity_for_set⟩
    | _, _, _ => none

/-- Groupby key of the component de-duplication: (set_url, platform, part_url). -/
def cKey (c : CompNorm) : String × String × String := (c.set_url, c.plat, c.part_url)

/-- Aggregation of one component group: the key columns and the maximal quantity. -/
def compAgg (k : String × String × String) (g : List CompNorm) : CompRaw :=
  ⟨some k.1, some k.2.1, some k.2.2, (g.map (·.qty)).foldr max 0⟩

/-- Composition Resolver normalization (lines 136-140): one row per
(set_url, platform, part_url), quantity aggregated with `max`. -/
def dedup_components (rows : List CompRaw) : List CompRaw :=
  groupBy keyLe3s cKey compAgg (compKeyed rows)

/-- View of a de-duplicated components row with total columns. -/
def toNorm (r : CompRaw) : Option CompNorm :=
  match r.set_url, r.platform, r.part_url with
  | some s, some p, some q => some ⟨s, p, q, r.quantity_for_set⟩
  | _, _, _ => none

/-! Craftable PRIME classification (lines 158-167) -/

/-- Aggregation of one structural group: distinct part count (`nunique`) and
summed quantity. -/
def ppsAgg (k : String × String) (g : List CompNorm) : String × String × ℕ × ℕ :=
  (k.1, k.2, ((g.map (·.part_url)).dedup).length, (g.map (·.qty)).sum)

/-- Structural aggregates per (set, platform): distinct part count and summed
quantity (lines 159-163). -/
def parts_per_set (comps : List CompNorm) : List (String × String × ℕ × ℕ) :=
  groupBy keyLe2 (fun c => (c.set_url, c.plat)) ppsAgg comps

/-- Craftable PRIME set keys: (distinct parts ≥ 2 or total quantity ≥ 2) and the
set identifier contains "prime_set" (lines 164-166). -/
def craftable_prime (comps : List CompNorm) : List (String × String) :=
  (parts_per_set comps).filterMap fun x =>
    if (2 ≤ x.2.2.1 ∨ 2 ≤ x.2.2.2) ∧ strContains x.1 "prime_set" = true
    then some (x.1, x.2.1) else none

/-! Cost Model (lines 150-204) -/

/-- Effective BUY price of an item/day: the BUY median when present and > 0, else
the SELL median (lines 151-154: the fallback mask is `isna | (price <= 0)`). -/
def eff_buy_price (buy sell : Option ℚ) : Option ℚ :=
  match buy with
  | some b => if b ≤ 0 then sell else some b
  | none => sell

/-- Left merge of qualifying components with the part daily rows on
(part_url, platform) (lines 178-182); an unmatched component keeps one row with
all daily fields NaN. -/
def comp_prices (comps : List CompNorm) (craft : List (String × String))
    (daily : List DailyRow) : List CompPriceRow :=
  (comps.filter fun c => decide ((c.set_url, c.plat) ∈ craft)).flatMap fun c =>
    let ms := daily.filter fun d => decide (d.item = c.part_url ∧ d.plat = c.plat)
    match ms with
    | [] => [⟨c.set_url, c.plat, c.part_url, c.qty, none, none, none, none⟩]
    | _ :: _ =>
      ms.map fun d =>
        ⟨c.set_url, c.plat, c.part_url, c.qty, some d.date,
          d.buy_med, d.sell_med, d.sell_depth_med⟩

/-- Weighted cost of a component row: quantity × effective BUY price (line 185);
NaN propagates through the product. -/
def weighted_cost (r : CompPriceRow) : Option ℚ :=
  (eff_buy_price r.buy_med r.sell_med).map fun p => (r.qty : ℚ) * p

/-- Effective per-part depth: floor(sell depth ÷ quantity), NaN filled with 0
(lines 186-188). -/
def eff_part_depth (r : CompPriceRow) : ℚ :=
  match r.sell_depth_med with
  | none => 0
  | some s => ((⌊s / (r.qty : ℚ)⌋ : ℤ) : ℚ)

/-- Component rows carrying a non-NaN date, paired with that date (groupby keys
containing NaN are dropped). -/
def datedCps (cps : List CompPriceRow) : List (CompPriceRow × ℤ) :=
  cps.filterMap fun r => r.date.map fun d => (r, d)

/-- Groupby key of the set-cost aggregation: (set_url, platform, date). -/
def scKey (x : CompPriceRow × ℤ) : String × String × ℤ := (x.1.set_url, x.1.plat, x.2)

/-- Aggregation of one set/day group: summed weighted cost (NaN skipped) and
minimum effective part depth. -/
def scAgg (k : String × String × ℤ) (g : List (CompPriceRow × ℤ)) : SetCostRow :=
  ⟨k.1, k.2.1, k.2.2,
    sumSkipNA (g.map fun x => weighted_cost x.1),
    minQ (g.map fun x => eff_part_depth x.1)⟩

/-- Aggregation of parts to set/day (lines 191-195): sum of weighted costs
(NaN skipped) and minimum effective part depth. -/
def set_costs (cps : List CompPriceRow) : List SetCostRow :=
  groupBy keyLe3z scKey scAgg (datedCps cps)

/-- Assembly of one `sets_daily` row from a set daily-summary row and its matched
`set_costs` row (lines 198-204): margin = sell − parts cost, ROI only when the
parts cost is a number > 0. -/
def mkSetsDailyRow (d : DailyRow) (m : Option SetCostRow) : SetsDailyRow :=
  let pc := m.map (·.parts_cost_buy)
  let mg := oSub d.sell_med pc
  { set_url := d.item, plat := d.plat, date := d.date,
    buy_med := d.buy_med, sell_med := d.sell_med,
    buy_depth_med := d.buy_depth_med, sell_depth_med := d.sell_depth_med,
    parts_cost_buy := pc,
    min_part_eff_depth := m.bind (·.min_part_eff_depth),
    margin := mg,
    roi_pct :=
      match pc, mg with
      | some c, some mv => if 0 < c then some (100 * mv / c) else none
      | _, _ => none }

/-- Daily series of qualifying sets (lines 171-204): inner merge of the daily
summaries with the craftable PRIME keys, left merge with `set_costs`. -/
def sets_daily (daily : List DailyRow) (craft : List (String × String))
    (sc : List SetCostRow) : List SetsDailyRow :=
  (daily.filter fun d => decide ((d.item, d.plat) ∈ craft)).map fun d =>
    mkSetsDailyRow d
      (sc.find? fun c => decide (c.set_url = d.item ∧ c.plat = d.plat ∧ c.date = d.date))

/-! KPI (lines 214-218) and normalization scale (lines 246-274) -/

/-- Daily volume cap: min of the buyer-side and assembly-side caps, NaN filled
with 0 and clamped at 0 (lines 215-217). -/
def daily_volume_cap (r : SetsDailyRow) : ℚ :=
  min (max 0 (r.buy_depth_med.getD 0)) (max 0 (r.min_part_eff_depth.getD 0))

/-- KPI daily potential: max(0, margin) × daily volume cap, with NaN margin
filled as 0 (line 218). -/
def kpi_daily_potential (r : SetsDailyRow) : ℚ :=
  max 0 (r.margin.getD 0) * daily_volume_cap r

/-- Key columns (set_url, platform) of a sets-daily row. -/
def sdKey (r : SetsDailyRow) : String × String := (r.set_url, r.plat)

/-- Fold step selecting the row with the greatest date, preferring the later
list element on ties. -/
def pickLaterBy {α : Type} (dateOf : α → ℤ) : Option α → α → Option α :=
  fun acc r =>
    match acc with
    | none => some r
    | some a => if dateOf a ≤ dateOf r then some r else some a

/-- Last element of a group in date order: models stable sort by date followed by
`groupby(...).tail(1)` (dates are unique within a group in the pipeline). -/
def pickLast (g : List SetsDailyRow) : Option SetsDailyRow :=
  g.foldl (pickLaterBy (·.date)) none

/-- Latest row per (set_url, platform) (lines 239-244). -/
def latest_by_set (sd : List SetsDailyRow) : List SetsDailyRow :=
  (groupBy keyLe2 sdKey (fun _ g => pickLast g) sd).filterMap id

/-- Linear-interpolation quantile of a sample list, as `np.quantile` with the
default method: virtual position q·(n−1) between the order statistics. -/
def quantileLin (l : List ℚ) (q : ℚ) : ℚ :=
  let s := l.insertionSort (· ≤ ·)
  let n := s.length
  if n = 0 then 0
  else
    let pos : ℚ := q * ((n : ℚ) - 1)
    let i : ℕ := (⌊pos⌋).toNat
    let lo := s.getD i 0
    let hi := s.getD (min (i + 1) (n - 1)) 0
    lo + (pos - (⌊pos⌋ : ℚ)) * (hi - lo)

/-- Calibration of the KPI normalization scale from the latest cross-section
(lines 248-254): with ≥ 5 samples, lo = p10 and hi stretches p90 to 0.8 of the
scale when p90 > p10; otherwise a degenerate widening; with < 5 samples, the
fixed fallback range [0, max(1, observed max)]. -/
def kpiScale (samples : List ℚ) : ℚ × ℚ :=
  if 5 ≤ samples.length then
    let p10 := quantileLin samples (1 / 10)
    let p90 := quantileLin samples (9 / 10)
    if p10 < p90 then (p10, p10 + (p90 - p10) / (8 / 10))
    else (p10, p10 + max 1 p90 + 1)
  else (0, max 1 (maxD samples 1))

/-- Normalized KPI value (lines 256-258): shift/scale by (lo, hi) with an 1e-9
guard on the denominator, clipped to [0, 1]. -/
def normKpi (lo hi v : ℚ) : ℚ :=
  min 1 (max 0 ((v - lo) / max (1 / 1000000000) (hi - lo)))

/-- KPI on the 0-100 scale (lines 266, 274): rounded to an integer (half to
even, as numpy). -/
def kpi_0_100 (lo hi v : ℚ) : ℤ :=
  roundHalfEven (100 * normKpi lo hi v)

/-! Snapshot alignment (lines 299-352) -/

/-- Backward as-of match (semantics of `pd.merge_asof(..., on="date",
by=[part_url, platform], direction="backward", allow_exact_matches=True)` after
the sorts at lines 300-319): the daily row for the part/platform with the
greatest date ≤ t, none when no such row exists. -/
def asofMatch (daily : List DailyRow) (part plat : String) (t : ℤ) : Option DailyRow :=
  (daily.filter fun d => decide (d.item = part ∧ d.plat = plat ∧ d.date ≤ t)).foldl
    (pickLaterBy (·.date)) none

/-- Robust unit cost of lines 345-348: keep the merged effective price where it
is a number > 0, else replace it with the as-of sell median. -/
def robustCost (u0 sell : Option ℚ) : Option ℚ :=
  match u0 with
  | some v => if 0 < v then some v else sell
  | none => sell

/-- Source tag of line 349-352: "BUY" iff the as-of buy median is a number > 0. -/
def tagOf (buy : Option ℚ) : String :=
  match buy with
  | some b => if 0 < b then "BUY" else "SELL"
  | none => "SELL"

/-- Assembly of one latest-parts row from a component row, the set latest date,
and the asof-matched daily row (lines 332-352). -/
def mkPartLatest (c : CompNorm) (t : ℤ) (m : Option DailyRow) : PartLatestRow :=
  { set_url := c.set_url, plat := c.plat, part_url := c.part_url, qty := c.qty,
    unit_cost :=
      robustCost (m.bind fun d => eff_buy_price d.buy_med d.sell_med) (m.bind (·.sell_med)),
    buy_med := m.bind (·.buy_med), sell_med := m.bind (·.sell_med),
    sdep := m.bind (·.sell_depth_med),
    latest_date_part := t,
    source := tagOf (m.bind (·.buy_med)) }

/-- Latest-parts breakdown (lines 305-352): each component row is given its set
latest date (rows without one are dropped), asof-matched against the part daily
rows, and tagged with a robust unit cost and its source. -/
def parts_latest (comps : List CompNorm) (latestDates : List (String × String × ℤ))
    (daily : List DailyRow) : List PartLatestRow :=
  comps.filterMap fun c =>
    (latestDates.find? fun ld => decide (ld.1 = c.set_url ∧ ld.2.1 = c.plat)).map fun ld =>
      mkPartLatest c ld.2.2 (asofMatch daily c.part_url c.plat ld.2.2)

/-- Latest dates per (set, platform) extracted from `latest_by_set`. -/
def latestDatesOf (lb : List SetsDailyRow) : List (String × String × ℤ) :=
  lb.map fun r => (r.set_url, r.plat, r.date)

/-! Reconciliation (lines 359-377) -/

/-- Key columns (set_url, platform) of a latest-parts row. -/
def plKey (r : PartLatestRow) : String × String := (r.set_url, r.plat)

/-- Aggregation of one snapshot-cost group: summed unit cost × quantity, NaN
products skipped by the groupby sum. -/
def snapAgg (k : String × String) (g : List PartLatestRow) : String × String × ℚ :=
  (k.1, k.2, sumSkipNA (g.map fun r => r.unit_cost.map (· * (r.qty : ℚ))))

/-- Snapshot parts cost per set (lines 360-364): sum over the latest-parts rows
of unit cost × quantity, NaN products skipped by the groupby sum. -/
def snap_cost (pl : List PartLatestRow) : List (String × String × ℚ) :=
  groupBy keyLe2 plKey snapAgg pl

/-- Assembly of one reconciliation row (lines 366-367): absolute difference of
the two cost estimates and relative difference against the Cost Model total,
whose zeroes are first replaced by NaN. -/
def mkCmpRow (r : SetsDailyRow) (snap : Option ℚ) : CmpRow :=
  ⟨r.set_url, r.plat, r.parts_cost_buy, snap, (oSub r.parts_cost_buy snap).map abs,
    match (oSub r.parts_cost_buy snap).map abs, r.parts_cost_buy with
    | some a, some c => if c = 0 then none else some (a / c)
    | _, _ => none⟩

/-- Reconciliation frame (lines 365-367): the sets index left-merged with the
snapshot costs, one comparison row per index row. -/
def reconcile (idx : List SetsDailyRow) (pl : List PartLatestRow) : List CmpRow :=
  idx.map fun r =>
    mkCmpRow r
      (((snap_cost pl).find? fun s => decide (s.1 = r.set_url ∧ s.2.1 = r.plat)).map (·.2.2))

/-- Descending order on reconciliation rows by relative difference
(`nlargest(5, "rel_diff")`). -/
def relGe (a b : CmpRow) : Prop := b.rel_diff.getD 0 ≤ a.rel_diff.getD 0

instance : DecidableRel relGe := fun a b => by unfold relGe; infer_instance

instance : IsTotal CmpRow relGe where
  total a b := le_total (b.rel_diff.getD 0) (a.rel_diff.getD 0)

instance : IsTrans CmpRow relGe where
  trans _ _ _ hab hbc := le_trans hbc hab

/-- Discrepancy flag (line 374): rows with relative difference > 5% and a non-NaN
absolute difference, the five largest by relative difference. -/
def discrepancyFlag (cmp : List CmpRow) : List CmpRow :=
  ((cmp.filter fun c =>
      (match c.rel_diff with | some r => decide ((1 : ℚ) / 20 < r) | none => false)
        && c.abs_diff.isSome).insertionSort relGe).take 5

/-! Output files and the main pipeline (lines 110-135, 230-297) -/

/-- Content of an output CSV: `rawEmpty` models `write_text("")` (a zero-byte,
headerless file), `table` models `DataFrame.to_csv` (always a header line, then
the rows). -/
inductive OutFile (α : Type) where
  | rawEmpty : OutFile α
  | table (header : List String) (rows : List α) : OutFile α
deriving DecidableEq

/-- Whether an output file begins with a CSV header line. -/
def isHeadered {α : Type} : OutFile α → Bool
  | .rawEmpty => false
  | .table _ _ => true

/-- Column names of `sets_index.csv` (lines 277-288). -/
def setsIndexHeader : List String :=
  ["set_url", "platform", "latest_date", "set_sell_med", "parts_cost_buy", "margin",
   "roi_pct", "buy_depth_med", "min_part_eff_depth", "vol_min", "kpi_daily",
   "kpi_norm", "kpi_0_100", "opportunity_score", "kpi_30d_avg"]

/-- Column names of `parts_latest_by_set.csv` (lines 338-352). -/
def partsLatestHeader : List String :=
  ["set_url", "platform", "part_url", "quantity_for_set", "unit_cost_latest",
   "buy_med_latest", "sell_med_latest", "sell_depth_med_latest", "latest_date_part",
   "unit_cost_source"]

/-- Daily series of qualifying sets computed from the two raw inputs, composing
the stages exactly as `main` does. -/
def pipelineSetsDaily (orders : List OrderRow) (compCsv : List CompCsvRow) :
    List SetsDailyRow :=
  let compsN := (dedup_components (compCsv.map prepComp)).filterMap toNorm
  let daily := daily_medians_orderbook orders
  let craft := craftable_prime compsN
  sets_daily daily craft (set_costs (comp_prices compsN craft daily))

/-- Main entry point of the analytics core, returning the contents of
`sets_index.csv` and `parts_latest_by_set.csv`. Empty input tables short-circuit
to zero-byte files (lines 118-122); an empty latest-by-set cross-section or an
empty asof side short-circuits the parts file (lines 294-297 and 321-324). -/
def runAnalytics (orders : List OrderRow) (compCsv : List CompCsvRow) :
    OutFile SetsDailyRow × OutFile PartLatestRow :=
  if orders.isEmpty || compCsv.isEmpty then (.rawEmpty, .rawEmpty)
  else
    let compsN := (dedup_components (compCsv.map prepComp)).filterMap toNorm
    let daily := daily_medians_orderbook orders
    let latest := latest_by_set (pipelineSetsDaily orders compCsv)
    let f1 := OutFile.table setsIndexHeader latest
    if latest.isEmpty then (f1, .rawEmpty)
    else
      let pl := parts_latest compsN (latestDatesOf latest) daily
      if pl.isEmpty || daily.isEmpty then (f1, .rawEmpty)
      else (f1, .table partsLatestHeader pl)

/-! Helper lemmas about the aggregation primitives -/

/-- Key columns of a `set_costs` row. -/
def scrKey (r : SetCostRow) : String × String × ℤ := (r.set_url, r.plat, r.date)

theorem le_foldr_max {l : List ℕ} {x : ℕ} (hx : x ∈ l) : x ≤ l.foldr max 0 := by
  induction l with
  | nil => cases hx
  | cons a t ih =>
    rcases List.mem_cons.mp hx with rfl | hx'
    · exact le_max_left _ _
    · exact le_trans (ih hx') (le_max_right _ _)

theorem foldr_max_mem {l : List ℕ} (h : l ≠ []) : l.foldr max 0 ∈ l := by
  induction l with
  | nil => exact absurd rfl h
  | cons a t ih =>
    by_cases ht : t = []
    · subst ht
      simp [List.foldr]
    · rcases le_total (t.foldr max 0) a with hle | hle
      · simp only [List.foldr]
        rw [max_eq_left hle]
        exact List.mem_cons_self _ _
      · simp only [List.foldr]
        rw [max_eq_right hle]
        exact List.mem_cons_of_mem _ (ih ht)

theorem foldl_min_le_init (xs : List ℚ) (x : ℚ) : xs.foldl min x ≤ x := by
  induction xs generalizing x with
  | nil => exact le_refl x
  | cons a t ih => exact le_trans (ih (min x a)) (min_le_left x a)

theorem foldl_min_le_mem {xs : List ℚ} {y : ℚ} (hy : y ∈ xs) (x : ℚ) :
    xs.foldl min x ≤ y := by
  induction xs generalizing x with
  | nil => cases hy
  | cons a t ih =>
    rcases List.mem_cons.mp hy with rfl | hy'
    · exact le_trans (foldl_min_le_init t (min x y)) (min_le_right x y)
    · exact ih hy' (min x a)

theorem foldl_min_cases (xs : List ℚ) (x : ℚ) :
    xs.foldl min x = x ∨ xs.foldl min x ∈ xs := by
  induction xs generalizing x with
  | nil => exact Or.inl rfl
  | cons a t ih =>
    rcases le_total x a with hle | hle
    · rcases ih x with h | h
      · left
        simpa [min_eq_left hle] using h
      · right
        simp only [List.foldl, min_eq_left hle]
        exact List.mem_cons_of_mem _ h
    · rcases ih a with h | h
      · right
        simp only [List.foldl, min_eq_right hle]
        rw [h]
        exact List.mem_cons_self _ _
      · right
        simp only [List.foldl, min_eq_right hle]
        exact List.mem_cons_of_mem _ h

theorem minQ_le {l : List ℚ} {m x : ℚ} (hm : minQ l = some m) (hx : x ∈ l) : m ≤ x := by
  cases l with
  | nil => cases hm
  | cons a t =>
    simp only [minQ, Option.some.injEq] at hm
    subst hm
    rcases List.mem_cons.mp hx with rfl | hx'
    · exact foldl_min_le_init t x
    · exact foldl_min_le_mem hx' a

theorem minQ_mem {l : List ℚ} {m : ℚ} (hm : minQ l = some m) : m ∈ l := by
  cases l with
  | nil => cases hm
  | cons a t =>
    simp only [minQ, Option.some.injEq] at hm
    subst hm
    rcases foldl_min_cases t a with h | h
    · rw [h]; exact List.mem_cons_self _ _
    · exact List.mem_cons_of_mem _ h

theorem minQ_isSome {l : List ℚ} (h : l ≠ []) : ∃ m, minQ l = some m := by
  cases l with
  | nil => exact absurd rfl h
  | cons a t => exact ⟨t.foldl min a, rfl⟩

theorem sumSkipNA_all_some {α : Type} {g : List α} {f : α → Option ℚ} {p : α → ℚ}
    (h : ∀ r ∈ g, f r = some (p r)) : sumSkipNA (g.map f) = (g.map p).sum := by
  induction g with
  | nil => rfl
  | cons a t ih =>
    have ha := h a (List.mem_cons_self _ _)
    unfold sumSkipNA at ih ⊢
    simp only [List.map_cons, List.filterMap_cons, id, ha, List.sum_cons]
    rw [ih fun r hr => h r (List.mem_cons_of_mem _ hr)]

theorem sumSkipNA_eq_sum_filterMap {α : Type} (g : List α) (f : α → Option ℚ) :
    sumSkipNA (g.map f) = (g.filterMap f).sum := by
  unfold sumSkipNA
  rw [List.filterMap_map]
  rfl

theorem sumSkipNA_all_none {α : Type} {g : List α} {f : α → Option ℚ}
    (h : ∀ r ∈ g, f r = none) : sumSkipNA (g.map f) = 0 := by
  rw [sumSkipNA_eq_sum_filterMap]
  rw [List.filterMap_eq_nil.mpr h]
  rfl

theorem omedian_eq_none {l : List (Option ℚ)} (h : ∀ x ∈ l, x = none) :
    omedian l = none := by
  unfold omedian
  rw [show l.filterMap id = [] from List.filterMap_eq_nil.mpr h]
  rfl

theorem foldl_pickLaterBy_some {α : Type} (dateOf : α → ℤ) (l : List α) (a : α) :
    ∃ d, l.foldl (pickLaterBy dateOf) (some a) = some d ∧ (d = a ∨ d ∈ l) ∧
      dateOf a ≤ dateOf d ∧ ∀ e ∈ l, dateOf e ≤ dateOf d := by
  induction l generalizing a with
  | nil => exact ⟨a, rfl, Or.inl rfl, le_refl _, by intro e he; cases he⟩
  | cons b t ih =>
    simp only [List.foldl]
    by_cases hab : dateOf a ≤ dateOf b
    · obtain ⟨d, hd, hmem, hdate, hall⟩ := ih b
      rw [show pickLaterBy dateOf (some a) b = some b by simp [pickLaterBy, hab]]
      refine ⟨d, hd, ?_, le_trans hab hdate, ?_⟩
      · rcases hmem with rfl | h
        · exact Or.inr (List.mem_cons_self _ _)
        · exact Or.inr (List.mem_cons_of_mem _ h)
      · intro e he
        rcases List.mem_cons.mp he with rfl | he'
        · exact hdate
        · exact hall e he'
    · obtain ⟨d, hd, hmem, hdate, hall⟩ := ih a
      rw [show pickLaterBy dateOf (some a) b = some a by simp [pickLaterBy, hab]]
      refine ⟨d, hd, ?_, hdate, ?_⟩
      · rcases hmem with rfl | h
        · exact Or.inl rfl
        · exact Or.inr (List.mem_cons_of_mem _ h)
      · intro e he
        rcases List.mem_cons.mp he with rfl | he'
        · exact le_trans (le_of_not_le hab) hdate
        · exact hall e he'

theorem foldl_pickLaterBy_none_spec {α : Type} (dateOf : α → ℤ) {l : List α} {d : α}
    (h : l.foldl (pickLaterBy dateOf) none = some d) :
    d ∈ l ∧ ∀ e ∈ l, dateOf e ≤ dateOf d := by
  cases l with
  | nil => cases h
  | cons b t =>
    simp only [List.foldl, pickLaterBy] at h
    obtain ⟨d', hd', hmem, hdate, hall⟩ := foldl_pickLaterBy_some dateOf t b
    rw [hd'] at h
    obtain rfl : d' = d := Option.some.injEq _ _ ▸ h
    refine ⟨?_, ?_⟩
    · rcases hmem with rfl | hm
      · exact List.mem_cons_self _ _
      · exact List.mem_cons_of_mem _ hm
    · intro e he
      rcases List.mem_cons.mp he with rfl | he'
      · exact hdate
      · exact hall e he'

theorem length_filterMap_find {α β γ : Type} (f : α → Option β) (g : α → β → γ)
    (l : List α) :
    (l.filterMap fun a => (f a).map (g a)).length = (l.filter fun a => (f a).isSome).length := by
  induction l with
  | nil => rfl
  | cons a t ih =>
    cases hfa : f a with
    | none => simp [List.filterMap_cons, List.filter_cons, hfa, ih]
    | some b => simp [List.filterMap_cons, List.filter_cons, hfa, ih]

/-! C7 — Daily Aggregator contract -/

/-- C7: for every raw order-book input, the Daily Aggregator outputs exactly one
row per distinct (item, platform, UTC date) present in the input with a parseable
timestamp, and each of the four numeric fields equals the median of only the
non-missing values of that field in its group (an all-missing field yields a
missing median, not zero). -/
theorem c7_daily_aggregator (rows : List OrderRow) :
    (((daily_medians_orderbook rows).map dKey).Nodup ∧
      ∀ k, k ∈ (daily_medians_orderbook rows).map dKey ↔
        k ∈ (rows.filterMap prepObs).map oKey) ∧
    ∀ dr ∈ daily_medians_orderbook rows,
      (dr.buy_med = omedian ((grp oKey (rows.filterMap prepObs) (dKey dr)).map (·.buy)) ∧
        dr.sell_med = omedian ((grp oKey (rows.filterMap prepObs) (dKey dr)).map (·.sell)) ∧
        dr.buy_depth_med = omedian ((grp oKey (rows.filterMap prepObs) (dKey dr)).map (·.bdep)) ∧
        dr.sell_depth_med = omedian ((grp oKey (rows.filterMap prepObs) (dKey dr)).map (·.sdep))) ∧
      ((∀ x ∈ grp oKey (rows.filterMap prepObs) (dKey dr), x.buy = none) → dr.buy_med = none) ∧
      ((∀ x ∈ grp oKey (rows.filterMap prepObs) (dKey dr), x.sell = none) → dr.sell_med = none) ∧
      ((∀ x ∈ grp oKey (rows.filterMap prepObs) (dKey dr), x.bdep = none) → dr.buy_depth_med = none) ∧
      ((∀ x ∈ grp oKey (rows.filterMap prepObs) (dKey dr), x.sdep = none) → dr.sell_depth_med = none) := by
  have hmap : (daily_medians_orderbook rows).map dKey
      = sortKeys keyLe3z ((rows.filterMap prepObs).map oKey) :=
    groupBy_map_key keyLe3z oKey dailyAgg (rows.filterMap prepObs) dKey (fun _ _ => rfl)
  refine ⟨⟨?_, ?_⟩, ?_⟩
  · rw [hmap]; exact sortKeys_nodup _ _
  · intro k; rw [hmap]; exact mem_sortKeys keyLe3z
  · intro dr hdr
    obtain ⟨k, _, rfl⟩ :=
      (mem_groupBy keyLe3z oKey dailyAgg (rows.filterMap prepObs)).mp hdr
    refine ⟨⟨rfl, rfl, rfl, rfl⟩, ?_, ?_, ?_, ?_⟩ <;>
      · intro h
        apply omedian_eq_none
        intro x hx
        obtain ⟨o, ho, rfl⟩ := List.mem_map.mp hx
        exact h o ho

/-- Concrete input for the C7 witness: two snapshots of one item on one day with
buy prices 10 and 20, plus one snapshot with an unparseable timestamp. -/
def c7rows : List OrderRow :=
  [⟨some "item_a", some "pc", some 3, some 10, some 30, none, some 4⟩,
   ⟨some "item_a", some "pc", some 3, some 20, none, none, none⟩,
   ⟨some "item_a", some "pc", none, some 99, some 99, some 99, some 99⟩]

/-- Witness for C7 at a concrete input: one output row (the unparseable snapshot
is dropped), whose buy median is the median 15 of the two non-missing buys and
whose buy-depth median is missing because the whole group is missing there. -/
theorem c7_daily_aggregator_witness :
    (daily_medians_orderbook c7rows
        = [⟨"item_a", "pc", 3, some 15, some 30, none, some 4⟩]) ∧
    ((((daily_medians_orderbook c7rows).map dKey).Nodup ∧
      ∀ k, k ∈ (daily_medians_orderbook c7rows).map dKey ↔
        k ∈ (c7rows.filterMap prepObs).map oKey) ∧
    ∀ dr ∈ daily_medians_orderbook c7rows,
      (dr.buy_med = omedian ((grp oKey (c7rows.filterMap prepObs) (dKey dr)).map (·.buy)) ∧
        dr.sell_med = omedian ((grp oKey (c7rows.filterMap prepObs) (dKey dr)).map (·.sell)) ∧
        dr.buy_depth_med = omedian ((grp oKey (c7rows.filterMap prepObs) (dKey dr)).map (·.bdep)) ∧
        dr.sell_depth_med = omedian ((grp oKey (c7rows.filterMap prepObs) (dKey dr)).map (·.sdep))) ∧
      ((∀ x ∈ grp oKey (c7rows.filterMap prepObs) (dKey dr), x.buy = none) → dr.buy_med = none) ∧
      ((∀ x ∈ grp oKey (c7rows.filterMap prepObs) (dKey dr), x.sell = none) → dr.sell_med = none) ∧
      ((∀ x ∈ grp oKey (c7rows.filterMap prepObs) (dKey dr), x.bdep = none) → dr.buy_depth_med = none) ∧
      ((∀ x ∈ grp oKey (c7rows.filterMap prepObs) (dKey dr), x.sdep = none) → dr.sell_depth_med = none)) := by
  constructor
  · have hobs : c7rows.filterMap prepObs
        = [⟨"item_a", "pc", 3, some 10, some 30, none, some 4⟩,
           ⟨"item_a", "pc", 3, some 20, none, none, none⟩] := by decide
    rw [daily_medians_orderbook, hobs]
    norm_num [groupBy, sortKeys, grp, dailyAgg, oKey, omedian, medianQ,
      List.insertionSort, List.orderedInsert, List.dedup,
      List.filterMap_cons, List.filterMap_nil, List.getD]
    refine ⟨fun h => ?_, fun h => ?_, fun h => ?_⟩ <;> exact absurd h (by simp)
  · exact c7_daily_aggregator c7rows

/-! C8 — Composition Resolver idempotence and order-insensitivity -/

theorem compAgg_perm (k : String × String × String) {g g' : List CompNorm}
    (h : g.Perm g') : compAgg k g = compAgg k g' := by
  unfold compAgg
  rw [(h.map (·.qty)).foldr_eq 0]

/-- The raw key columns of a components row. -/
def rawKey (r : CompRaw) : Option String × Option String × Option String :=
  (r.set_url, r.platform, r.part_url)

/-- The key columns of a keyed components row, wrapped back into option cells. -/
def normSome (c : CompNorm) : Option String × Option String × Option String :=
  (some c.set_url, some c.plat, some c.part_url)

theorem compKeyed_map_compAgg (F : (String × String × String) → List CompNorm) :
    ∀ ks : List (String × String × String),
      compKeyed (ks.map fun k => compAgg k (F k))
        = ks.map fun k => ⟨k.1, k.2.1, k.2.2, ((F k).map (·.qty)).foldr max 0⟩ := by
  intro ks
  induction ks with
  | nil => rfl
  | cons a t ih =>
    unfold compKeyed at ih ⊢
    simp only [List.map_cons, List.filterMap_cons]
    rw [show (match (compAgg a (F a)).set_url, (compAgg a (F a)).platform,
          (compAgg a (F a)).part_url with
        | some s, some p, some q => some (⟨s, p, q, (compAgg a (F a)).quantity_for_set⟩ : CompNorm)
        | _, _, _ => none)
      = some ⟨a.1, a.2.1, a.2.2, ((F a).map (·.qty)).foldr max 0⟩ from rfl]
    rw [ih]

theorem dedup_components_idem (rows : List CompRaw) :
    dedup_components (dedup_components rows) = dedup_components rows := by
  have hA : compKeyed (dedup_components rows)
      = (sortKeys keyLe3s ((compKeyed rows).map cKey)).map
          fun k => (⟨k.1, k.2.1, k.2.2,
            ((grp cKey (compKeyed rows) k).map (·.qty)).foldr max 0⟩ : CompNorm) :=
    compKeyed_map_compAgg _ _
  have hB : (compKeyed (dedup_components rows)).map cKey
      = sortKeys keyLe3s ((compKeyed rows).map cKey) := by
    rw [hA, List.map_map]
    calc (sortKeys keyLe3s ((compKeyed rows).map cKey)).map
          (cKey ∘ fun k => (⟨k.1, k.2.1, k.2.2,
            ((grp cKey (compKeyed rows) k).map (·.qty)).foldr max 0⟩ : CompNorm))
        = (sortKeys keyLe3s ((compKeyed rows).map cKey)).map id :=
          List.map_congr_left (fun k _ => rfl)
      _ = _ := List.map_id _
  show groupBy keyLe3s cKey compAgg (compKeyed (dedup_components rows))
      = dedup_components rows
  unfold groupBy
  rw [hB, sortKeys_idem]
  show (sortKeys keyLe3s ((compKeyed rows).map cKey)).map
      (fun k => compAgg k (grp cKey (compKeyed (dedup_components rows)) k))
    = (sortKeys keyLe3s ((compKeyed rows).map cKey)).map
      (fun k => compAgg k (grp cKey (compKeyed rows) k))
  apply List.map_congr_left
  intro k hk
  have hnd : ((compKeyed (dedup_components rows)).map cKey).Nodup := by
    rw [hB]; exact sortKeys_nodup _ _
  have hxmem : (⟨k.1, k.2.1, k.2.2,
      ((grp cKey (compKeyed rows) k).map (·.qty)).foldr max 0⟩ : CompNorm)
      ∈ compKeyed (dedup_components rows) := by
    rw [hA]
    exact List.mem_map.mpr ⟨k, hk, rfl⟩
  have hgrp := grp_eq_singleton cKey hnd hxmem
  rw [show cKey (⟨k.1, k.2.1, k.2.2,
      ((grp cKey (compKeyed rows) k).map (·.qty)).foldr max 0⟩ : CompNorm) = k from rfl] at hgrp
  rw [hgrp]
  unfold compAgg
  simp [Nat.max_zero]

/-- C8: the Composition Resolver is row-order insensitive (any permutation of the
raw rows yields identical normalized output), idempotent, produces exactly one
row per (set, platform, part) key, and assigns each key the maximum quantity
observed across its duplicate rows. -/
theorem c8_composition_resolver (rows rows2 : List CompRaw) (hperm : rows.Perm rows2) :
    dedup_components rows = dedup_components rows2 ∧
    dedup_components (dedup_components rows) = dedup_components rows ∧
    ((dedup_components rows).map rawKey).Nodup ∧
    ∀ r ∈ dedup_components rows,
      (∀ x ∈ compKeyed rows, normSome x = rawKey r → x.qty ≤ r.quantity_for_set) ∧
      (∃ x ∈ compKeyed rows, normSome x = rawKey r ∧ x.qty = r.quantity_for_set) := by
  refine ⟨?_, dedup_components_idem rows, ?_, ?_⟩
  · exact groupBy_eq_of_perm keyLe3s cKey compAgg
      (fun k {g g'} h => compAgg_perm k h) (hperm.filterMap _)
  · have : (dedup_components rows).map rawKey
        = (sortKeys keyLe3s ((compKeyed rows).map cKey)).map
            fun k => (some k.1, some k.2.1, some k.2.2) := by
      unfold dedup_components groupBy
      rw [List.map_map]
      exact List.map_congr_left (fun k _ => rfl)
    rw [this]
    refine List.Nodup.map ?_ (sortKeys_nodup _ _)
    intro a b hab
    simp only [Prod.mk.injEq, Option.some.injEq] at hab
    exact Prod.ext hab.1 (Prod.ext hab.2.1 hab.2.2)
  · intro r hr
    obtain ⟨k, hk, rfl⟩ := (mem_groupBy keyLe3s cKey compAgg (compKeyed rows)).mp hr
    have hkey : ∀ x : CompNorm, normSome x = rawKey (compAgg k (grp cKey (compKeyed rows) k))
        ↔ cKey x = k := by
      intro x
      unfold normSome rawKey compAgg cKey
      constructor
      · intro h
        simp only [Prod.mk.injEq, Option.some.injEq] at h
        exact Prod.ext h.1 (Prod.ext h.2.1 h.2.2)
      · intro h
        rw [show x.set_url = k.1 from congrArg Prod.fst h,
          show x.plat = k.2.1 from congrArg (Prod.fst ∘ Prod.snd) h,
          show x.part_url = k.2.2 from congrArg (Prod.snd ∘ Prod.snd) h]
    constructor
    · intro x hx hkx
      have hxg : x ∈ grp cKey (compKeyed rows) k :=
        List.mem_filter.mpr ⟨hx, decide_eq_true ((hkey x).mp hkx)⟩
      exact le_foldr_max (List.mem_map.mpr ⟨x, hxg, rfl⟩)
    · obtain ⟨x0, hx0, hkx0⟩ := List.mem_map.mp hk
      have hx0g : x0 ∈ grp cKey (compKeyed rows) k :=
        List.mem_filter.mpr ⟨hx0, decide_eq_true hkx0⟩
      have hne : (grp cKey (compKeyed rows) k).map (·.qty) ≠ [] := by
        intro h
        rw [List.map_eq_nil] at h
        rw [h] at hx0g
        cases hx0g
      obtain ⟨x, hxg, hxq⟩ := List.mem_map.mp (foldr_max_mem hne)
      refine ⟨x, (List.mem_filter.mp hxg).1, ?_, hxq⟩
      exact (hkey x).mpr (decide_eq_true_eq.mp (List.mem_filter.mp hxg).2)

/-- Concrete input for the C8 witness: duplicate observations of one part with
quantities 2 and 5, and a second part with quantity 1. -/
def c8rows : List CompRaw :=
  [⟨some "s_prime_set", some "pc", some "part_a", 2⟩,
   ⟨some "s_prime_set", some "pc", some "part_b", 1⟩,
   ⟨some "s_prime_set", some "pc", some "part_a", 5⟩]

/-- A permutation of `c8rows`. -/
def c8rows2 : List CompRaw :=
  [⟨some "s_prime_set", some "pc", some "part_a", 5⟩,
   ⟨some "s_prime_set", some "pc", some "part_a", 2⟩,
   ⟨some "s_prime_set", some "pc", some "part_b", 1⟩]

/-- Witness for C8 at a concrete input: the resolver collapses the duplicates to
the maximal quantity 5, and the theorem applies with the permuted input. -/
theorem c8_composition_resolver_witness :
    (dedup_components c8rows
      = [⟨some "s_prime_set", some "pc", some "part_a", 5⟩,
         ⟨some "s_prime_set", some "pc", some "part_b", 1⟩]) ∧
    (dedup_components c8rows = dedup_components c8rows2 ∧
      dedup_components (dedup_components c8rows) = dedup_components c8rows ∧
      ((dedup_components c8rows).map rawKey).Nodup ∧
      ∀ r ∈ dedup_components c8rows,
        (∀ x ∈ compKeyed c8rows, normSome x = rawKey r → x.qty ≤ r.quantity_for_set) ∧
        (∃ x ∈ compKeyed c8rows, normSome x = rawKey r ∧ x.qty = r.quantity_for_set)) := by
  constructor
  · decide
  · exact c8_composition_resolver c8rows c8rows2 (by decide)

/-! C10 — unit_cost_source tag invariant -/

theorem mkPartLatest_source (c : CompNorm) (t : ℤ) (m : Option DailyRow) :
    (mkPartLatest c t m).source = tagOf (m.bind (·.buy_med)) := rfl

theorem mkPartLatest_buy (c : CompNorm) (t : ℤ) (m : Option DailyRow) :
    (mkPartLatest c t m).buy_med = m.bind (·.buy_med) := rfl

theorem mkPartLatest_sell (c : CompNorm) (t : ℤ) (m : Option DailyRow) :
    (mkPartLatest c t m).sell_med = m.bind (·.sell_med) := rfl

theorem mkPartLatest_cost (c : CompNorm) (t : ℤ) (m : Option DailyRow) :
    (mkPartLatest c t m).unit_cost
      = robustCost (m.bind fun d => eff_buy_price d.buy_med d.sell_med)
          (m.bind (·.sell_med)) := rfl

theorem tagOf_spec (buy : Option ℚ) :
    (tagOf buy = "BUY" ∨ tagOf buy = "SELL") ∧
    (tagOf buy = "BUY" ↔ ∃ b, buy = some b ∧ 0 < b) := by
  cases buy with
  | none =>
    rw [show tagOf none = "SELL" from rfl]
    refine ⟨Or.inr rfl, fun hsrc => absurd hsrc (by decide), ?_⟩
    rintro ⟨b, hb', _⟩
    cases hb'
  | some b =>
    rw [show tagOf (some b) = if 0 < b then "BUY" else "SELL" from rfl]
    by_cases h0 : 0 < b
    · rw [if_pos h0]
      exact ⟨Or.inl rfl, fun _ => ⟨b, rfl, h0⟩, fun _ => rfl⟩
    · rw [if_neg h0]
      refine ⟨Or.inr rfl, fun hsrc => absurd hsrc (by decide), ?_⟩
      rintro ⟨b', hb', h0'⟩
      obtain rfl : b = b' := Option.some.injEq _ _ ▸ hb'
      exact absurd h0' h0

theorem mkPartLatest_tag (c : CompNorm) (t : ℤ) (m : Option DailyRow) :
    ((mkPartLatest c t m).source = "BUY" ∨ (mkPartLatest c t m).source = "SELL") ∧
    ((mkPartLatest c t m).source = "BUY" ↔
      ∃ b, (mkPartLatest c t m).buy_med = some b ∧ 0 < b) ∧
    ((mkPartLatest c t m).buy_med = none → (mkPartLatest c t m).sell_med = none →
      (mkPartLatest c t m).source = "SELL" ∧ (mkPartLatest c t m).unit_cost = none) := by
  rw [mkPartLatest_source, mkPartLatest_buy, mkPartLatest_sell, mkPartLatest_cost]
  obtain ⟨h1, h2⟩ := tagOf_spec (m.bind (·.buy_med))
  refine ⟨h1, h2, ?_⟩
  intro hb hsell
  have hu : (m.bind fun d => eff_buy_price d.buy_med d.sell_med) = none := by
    cases m with
    | none => rfl
    | some d =>
      have hb2 : d.buy_med = none := hb
      have hs2 : d.sell_med = none := hsell
      show eff_buy_price d.buy_med d.sell_med = none
      rw [hb2, hs2]
      rfl
  rw [hu, hsell, hb]
  exact ⟨rfl, rfl⟩

/-- C10: every emitted latest-parts row carries a source tag that is exactly
"BUY" or "SELL"; it is "BUY" iff the as-of buy median is present and > 0; when
both as-of medians are missing the row is still emitted, tagged "SELL", with a
missing unit cost (and in general one row is emitted per component that has a
latest set date). -/
theorem c10_unit_cost_source (comps : List CompNorm) (lds : List (String × String × ℤ))
    (daily : List DailyRow) (pr : PartLatestRow)
    (hpr : pr ∈ parts_latest comps lds daily) :
    (pr.source = "BUY" ∨ pr.source = "SELL") ∧
    (pr.source = "BUY" ↔ ∃ b, pr.buy_med = some b ∧ 0 < b) ∧
    (pr.buy_med = none → pr.sell_med = none → pr.source = "SELL" ∧ pr.unit_cost = none) ∧
    (parts_latest comps lds daily).length
      = (comps.filter fun c =>
          ((lds.find? fun ld => decide (ld.1 = c.set_url ∧ ld.2.1 = c.plat)).isSome)).length := by
  obtain ⟨c, _, hc⟩ := List.mem_filterMap.mp hpr
  obtain ⟨ld, _, rfl⟩ := Option.map_eq_some'.mp hc
  obtain ⟨h1, h2, h3⟩ :=
    mkPartLatest_tag c ld.2.2 (asofMatch daily c.part_url c.plat ld.2.2)
  exact ⟨h1, h2, h3, length_filterMap_find _ _ comps⟩

/-- Concrete input for the C10 witness: one component whose part has no daily
rows at all, so both as-of medians are missing. -/
def c10comps : List CompNorm := [⟨"s_prime_set", "pc", "part_a", 1⟩]

/-- Latest set dates for the C10 witness. -/
def c10lds : List (String × String × ℤ) := [("s_prime_set", "pc", 5)]

/-- Witness for C10: the row is still emitted, tagged "SELL", with missing unit
cost, and the theorem applies to it. -/
theorem c10_unit_cost_source_witness :
    (parts_latest c10comps c10lds []
      = [⟨"s_prime_set", "pc", "part_a", 1, none, none, none, none, 5, "SELL"⟩]) ∧
    ((("SELL" : String) = "BUY" ∨ ("SELL" : String) = "SELL") ∧
      (("SELL" : String) = "BUY" ↔ ∃ b, (none : Option ℚ) = some b ∧ 0 < b) ∧
      ((none : Option ℚ) = none → (none : Option ℚ) = none →
        ("SELL" : String) = "SELL" ∧ (none : Option ℚ) = none) ∧
      (parts_latest c10comps c10lds []).length
        = (c10comps.filter fun c =>
            ((c10lds.find? fun ld => decide (ld.1 = c.set_url ∧ ld.2.1 = c.plat)).isSome)).length) := by
  constructor
  · decide
  · exact c10_unit_cost_source c10comps c10lds []
      ⟨"s_prime_set", "pc", "part_a", 1, none, none, none, none, 5, "SELL"⟩ (by decide)

/-! C3 — backward as-of alignment -/

/-- C3: the as-of match used to build the latest-parts breakdown returns the
daily row of the part and platform with the greatest date not exceeding the set
latest date — never a later one — and every emitted latest-parts row reads its
price and depth fields from exactly that match. -/
theorem c3_asof_alignment (daily : List DailyRow) (part plat : String) (t : ℤ)
    (d : DailyRow) (h : asofMatch daily part plat t = some d) :
    (d ∈ daily ∧ d.item = part ∧ d.plat = plat ∧ d.date ≤ t ∧
      ∀ e ∈ daily, e.item = part → e.plat = plat → e.date ≤ t → e.date ≤ d.date) ∧
    ∀ (comps : List CompNorm) (lds : List (String × String × ℤ)),
      ∀ pr ∈ parts_latest comps lds daily,
        pr.buy_med = (asofMatch daily pr.part_url pr.plat pr.latest_date_part).bind (·.buy_med) ∧
        pr.sell_med = (asofMatch daily pr.part_url pr.plat pr.latest_date_part).bind (·.sell_med) ∧
        pr.sdep = (asofMatch daily pr.part_url pr.plat pr.latest_date_part).bind (·.sell_depth_med) := by
  constructor
  · have h' : (daily.filter fun e => decide (e.item = part ∧ e.plat = plat ∧ e.date ≤ t)).foldl
        (pickLaterBy (fun e : DailyRow => e.date)) none = some d := h
    obtain ⟨hmem, hmax⟩ := foldl_pickLaterBy_none_spec (fun e : DailyRow => e.date) h'
    have hflt := List.mem_filter.mp hmem
    have hcond := decide_eq_true_eq.mp hflt.2
    refine ⟨hflt.1, hcond.1, hcond.2.1, hcond.2.2, ?_⟩
    intro e he hi hp ht
    exact hmax e (List.mem_filter.mpr ⟨he, decide_eq_true ⟨hi, hp, ht⟩⟩)
  · intro comps lds pr hpr
    obtain ⟨c, _, hc⟩ := List.mem_filterMap.mp hpr
    obtain ⟨ld, _, rfl⟩ := Option.map_eq_some'.mp hc
    exact ⟨rfl, rfl, rfl⟩

/-- Daily rows for the C3 witness: the part has summaries at dates T−3 and T−1
(prices 8 and 9) for T = 10. -/
def c3daily : List DailyRow :=
  [⟨"part_b", "pc", 7, none, some 8, none, none⟩,
   ⟨"part_b", "pc", 9, none, some 9, none, none⟩]

/-- Witness for C3: with daily rows at dates 7 and 9 and a set latest date of 10,
the as-of match resolves to the date-9 row (price 9), and the theorem applies. -/
theorem c3_asof_alignment_witness :
    (asofMatch c3daily "part_b" "pc" 10
      = some ⟨"part_b", "pc", 9, none, some 9, none, none⟩) ∧
    ((⟨"part_b", "pc", 9, none, some 9, none, none⟩ : DailyRow) ∈ c3daily ∧
      ("part_b" : String) = "part_b" ∧ ("pc" : String) = "pc" ∧ (9 : ℤ) ≤ 10 ∧
      ∀ e ∈ c3daily, e.item = "part_b" → e.plat = "pc" → e.date ≤ 10 → e.date ≤ 9) ∧
    ∀ (comps : List CompNorm) (lds : List (String × String × ℤ)),
      ∀ pr ∈ parts_latest comps lds c3daily,
        pr.buy_med = (asofMatch c3daily pr.part_url pr.plat pr.latest_date_part).bind (·.buy_med) ∧
        pr.sell_med = (asofMatch c3daily pr.part_url pr.plat pr.latest_date_part).bind (·.sell_med) ∧
        pr.sdep = (asofMatch c3daily pr.part_url pr.plat pr.latest_date_part).bind (·.sell_depth_med) := by
  have h := c3_asof_alignment c3daily "part_b" "pc" 10
    ⟨"part_b", "pc", 9, none, some 9, none, none⟩ (by decide)
  exact ⟨by decide, h.1, h.2⟩

/-! Cost Model membership helpers -/

theorem set_costs_mem (cps : List CompPriceRow) {k : String × String × ℤ}
    (hk : k ∈ (datedCps cps).map scKey) :
    scAgg k (grp scKey (datedCps cps) k) ∈ set_costs cps :=
  (mem_groupBy keyLe3z scKey scAgg (datedCps cps)).mpr ⟨k, hk, rfl⟩

theorem set_costs_key_nodup (cps : List CompPriceRow) :
    ((set_costs cps).map scrKey).Nodup := by
  have h : (set_costs cps).map scrKey = sortKeys keyLe3z ((datedCps cps).map scKey) :=
    groupBy_map_key keyLe3z scKey scAgg (datedCps cps) scrKey (fun _ _ => rfl)
  rw [h]
  exact sortKeys_nodup _ _

theorem grp_nonempty_of_mem_keys {α K : Type} [DecidableEq K] (key : α → K)
    {rows : List α} {k : K} (hk : k ∈ rows.map key) : grp key rows k ≠ [] := by
  obtain ⟨x, hx, rfl⟩ := List.mem_map.mp hk
  intro h
  have : x ∈ grp key rows (key x) := List.mem_filter.mpr ⟨hx, decide_eq_true rfl⟩
  rw [h] at this
  cases this

/-! C2 — Cost Model formulas -/

/-- C2: for a set/platform/date group whose component rows each carry a defined
effective price, the Cost Model produces exactly one `set_costs` row whose parts
cost is the sum of required quantity × effective price over the group; the
effective price is the buy median when present and > 0 and the sell median
otherwise; margin is the set sell median minus the parts cost; and ROI is
100·margin/cost when the cost is a number > 0 and missing otherwise (missing
parts cost gives missing margin and ROI). -/
theorem c2_cost_model (cps : List CompPriceRow) (k : String × String × ℤ)
    (price : CompPriceRow → ℚ)
    (hk : k ∈ (datedCps cps).map scKey)
    (hall : ∀ x ∈ grp scKey (datedCps cps) k,
      eff_buy_price x.1.buy_med x.1.sell_med = some (price x.1)) :
    (∃ row ∈ set_costs cps, scrKey row = k ∧
      row.parts_cost_buy
        = ((grp scKey (datedCps cps) k).map fun x => (x.1.qty : ℚ) * price x.1).sum) ∧
    ((set_costs cps).map scrKey).Nodup ∧
    (∀ b s, eff_buy_price (some b) s = if b ≤ 0 then s else some b) ∧
    (∀ s, eff_buy_price none s = s) ∧
    (∀ (dr : DailyRow) (sc : SetCostRow) (v : ℚ), dr.sell_med = some v →
      (mkSetsDailyRow dr (some sc)).margin = some (v - sc.parts_cost_buy) ∧
      (mkSetsDailyRow dr (some sc)).roi_pct
        = if 0 < sc.parts_cost_buy
          then some (100 * (v - sc.parts_cost_buy) / sc.parts_cost_buy) else none) ∧
    (∀ dr : DailyRow, (mkSetsDailyRow dr none).margin = none ∧
      (mkSetsDailyRow dr none).roi_pct = none) := by
  refine ⟨⟨scAgg k (grp scKey (datedCps cps) k), set_costs_mem cps hk, rfl, ?_⟩,
    set_costs_key_nodup cps, fun b s => rfl, fun s => rfl, ?_, ?_⟩
  · show sumSkipNA ((grp scKey (datedCps cps) k).map fun x => weighted_cost x.1) = _
    exact sumSkipNA_all_some fun x hx => by
      unfold weighted_cost
      rw [hall x hx]
      rfl
  · intro dr sc v hv
    obtain ⟨i, p, dt, bm, sm, bdm, sdm⟩ := dr
    obtain rfl : sm = some v := hv
    exact ⟨rfl, rfl⟩
  · intro dr
    obtain ⟨i, p, dt, bm, sm, bdm, sdm⟩ := dr
    cases sm with
    | none => exact ⟨rfl, rfl⟩
    | some v => exact ⟨rfl, rfl⟩

/-- Component price rows for the C2 witness: part A qty 1 with buy median 10,
part B qty 2 with buy median 5, on one date. -/
def c2cps : List CompPriceRow :=
  [⟨"s_prime_set", "pc", "part_a", 1, some 0, some 10, none, none⟩,
   ⟨"s_prime_set", "pc", "part_b", 2, some 0, some 5, none, none⟩]

/-- Effective prices of the C2 witness components. -/
def c2price (x : CompPriceRow) : ℚ := if x.part_url = "part_a" then 10 else 5

/-- Set daily-summary row for the C2 witness: sell median 35. -/
def c2dr : DailyRow := ⟨"s_prime_set", "pc", 0, none, some 35, none, none⟩

/-- Witness for C2 at the concrete example of the claim: parts cost
1×10 + 2×5 = 20, margin 35 − 20 = 15, ROI 75. -/
theorem c2_cost_model_witness :
    (set_costs c2cps = [⟨"s_prime_set", "pc", 0, 20, some 0⟩]) ∧
    (mkSetsDailyRow c2dr (some ⟨"s_prime_set", "pc", 0, 20, some 0⟩)).margin = some 15 ∧
    (mkSetsDailyRow c2dr (some ⟨"s_prime_set", "pc", 0, 20, some 0⟩)).roi_pct = some 75 ∧
    (∃ row ∈ set_costs c2cps, scrKey row = ("s_prime_set", "pc", 0) ∧
      row.parts_cost_buy
        = ((grp scKey (datedCps c2cps) ("s_prime_set", "pc", 0)).map
            fun x => (x.1.qty : ℚ) * c2price x.1).sum) := by
  refine ⟨?_, ?_, ?_,
    (c2_cost_model c2cps ("s_prime_set", "pc", 0) c2price (by decide) (by decide)).1⟩
  · norm_num [c2cps, set_costs, groupBy, sortKeys, scAgg, grp, datedCps, scKey,
      sumSkipNA, minQ, eff_part_depth, weighted_cost, eff_buy_price,
      List.insertionSort, List.orderedInsert, List.dedup,
      List.filterMap_cons, List.filterMap_nil]
  · norm_num [c2dr, mkSetsDailyRow, oSub]
  · norm_num [c2dr, mkSetsDailyRow, oSub]

/-! C1 — missing part prices do not make the parts cost missing -/

/-- C1 (amended): the groupby sum of line 193 skips missing weighted costs, so
for every set/platform/date group the parts cost equals the sum over only the
component rows whose weighted cost is defined — a group whose rows are all
missing sums to 0 rather than staying missing — and margin is then computed
from that defined cost (missing only when the set sell median is missing). -/
theorem c1_missing_price_propagation (cps : List CompPriceRow) (k : String × String × ℤ)
    (hk : k ∈ (datedCps cps).map scKey) :
    ∃ row ∈ set_costs cps, scrKey row = k ∧
      row.parts_cost_buy
        = ((grp scKey (datedCps cps) k).filterMap fun x => weighted_cost x.1).sum ∧
      ((∀ x ∈ grp scKey (datedCps cps) k, weighted_cost x.1 = none) →
        row.parts_cost_buy = 0) ∧
      ∀ (dr : DailyRow) (v : ℚ), dr.sell_med = some v →
        (mkSetsDailyRow dr (some row)).margin = some (v - row.parts_cost_buy) := by
  refine ⟨scAgg k (grp scKey (datedCps cps) k), set_costs_mem cps hk, rfl, ?_, ?_, ?_⟩
  · exact sumSkipNA_eq_sum_filterMap _ _
  · exact fun h => sumSkipNA_all_none h
  · intro dr v hv
    obtain ⟨i, p, dt, bm, sm, bdm, sdm⟩ := dr
    obtain rfl : sm = some v := hv
    rfl

/-- Daily summaries for the C1 counterexample: part A has buy median 10, part B
has a daily row with both medians missing, the set sells at 35, all on date 0. -/
def c1daily : List DailyRow :=
  [⟨"part_a", "pc", 0, some 10, none, none, none⟩,
   ⟨"part_b", "pc", 0, none, none, none, none⟩,
   ⟨"s_prime_set", "pc", 0, none, some 35, none, none⟩]

/-- Components for the C1 counterexample: the set requires one part A and one
part B. -/
def c1comps : List CompNorm :=
  [⟨"s_prime_set", "pc", "part_a", 1⟩, ⟨"s_prime_set", "pc", "part_b", 1⟩]

/-- Counterexample to C1 as stated: part B has no price at all on date 0, yet
the parts cost of the set on that date is the defined value 10 (part A alone),
margin 25 and ROI 250 are defined as well — nothing propagates as missing. -/
theorem c1_counterexample :
    ((sets_daily c1daily (craftable_prime c1comps)
        (set_costs (comp_prices c1comps (craftable_prime c1comps) c1daily))).map
      fun r => (r.parts_cost_buy, r.margin, r.roi_pct))
      = [(some 10, some 25, some 250)] ∧
    (some (10 : ℚ) ≠ (none : Option ℚ)) ∧ (some (25 : ℚ) ≠ (none : Option ℚ)) := by
  have hcraft : craftable_prime c1comps = [("s_prime_set", "pc")] := by decide
  have hcps : comp_prices c1comps [("s_prime_set", "pc")] c1daily
      = [⟨"s_prime_set", "pc", "part_a", 1, some 0, some 10, none, none⟩,
         ⟨"s_prime_set", "pc", "part_b", 1, some 0, none, none, none⟩] := by decide
  have hsc : set_costs
      [⟨"s_prime_set", "pc", "part_a", 1, some 0, some 10, none, none⟩,
       ⟨"s_prime_set", "pc", "part_b", 1, some 0, none, none, none⟩]
      = [⟨"s_prime_set", "pc", 0, 10, some 0⟩] := by
    norm_num [set_costs, groupBy, sortKeys, scAgg, grp, datedCps, scKey,
      sumSkipNA, minQ, eff_part_depth, weighted_cost, eff_buy_price,
      List.insertionSort, List.orderedInsert, List.dedup,
      List.filterMap_cons, List.filterMap_nil]
  rw [hcraft, hcps, hsc]
  refine ⟨?_, by decide, by decide⟩
  have hfilter : c1daily.filter
      (fun d => decide ((d.item, d.plat) ∈ [("s_prime_set", "pc")]))
      = [⟨"s_prime_set", "pc", 0, none, some 35, none, none⟩] := by decide
  rw [show sets_daily c1daily [("s_prime_set", "pc")] [⟨"s_prime_set", "pc", 0, 10, some 0⟩]
      = (c1daily.filter fun d => decide ((d.item, d.plat) ∈ [("s_prime_set", "pc")])).map
        (fun d => mkSetsDailyRow d ([⟨"s_prime_set", "pc", 0, 10, some 0⟩].find? fun c =>
          decide (c.set_url = d.item ∧ c.plat = d.plat ∧ c.date = d.date))) from rfl,
    hfilter]
  norm_num [mkSetsDailyRow, oSub, List.find?]

/-- Witness for the amended C1 at the counterexample input: the group at
("s_prime_set", "pc", 0) exists, so the amended statement applies to it. -/
theorem c1_missing_price_propagation_witness :
    ∃ row ∈ set_costs (comp_prices c1comps (craftable_prime c1comps) c1daily),
      scrKey row = ("s_prime_set", "pc", 0) ∧
      row.parts_cost_buy
        = ((grp scKey (datedCps (comp_prices c1comps (craftable_prime c1comps) c1daily))
            ("s_prime_set", "pc", 0)).filterMap fun x => weighted_cost x.1).sum ∧
      ((∀ x ∈ grp scKey (datedCps (comp_prices c1comps (craftable_prime c1comps) c1daily))
          ("s_prime_set", "pc", 0), weighted_cost x.1 = none) →
        row.parts_cost_buy = 0) ∧
      ∀ (dr : DailyRow) (v : ℚ), dr.sell_med = some v →
        (mkSetsDailyRow dr (some row)).margin = some (v - row.parts_cost_buy) :=
  c1_missing_price_propagation
    (comp_prices c1comps (craftable_prime c1comps) c1daily)
    ("s_prime_set", "pc", 0) (by decide)

/-! C6 — liquidity bottleneck is a minimum over the parts present that date -/

/-- C6 (amended): for every set/platform/date group, the set-level liquidity
bottleneck is the minimum of floor(sell depth ÷ quantity) over the component
rows present in that date group (a present row with missing depth contributes
an effective depth of 0); parts without a daily row on that date are absent
from the group and hence excluded from the minimum. -/
theorem c6_liquidity_bottleneck (cps : List CompPriceRow) (k : String × String × ℤ)
    (hk : k ∈ (datedCps cps).map scKey) :
    (∃ row ∈ set_costs cps, scrKey row = k ∧
      ∃ m, row.min_part_eff_depth = some m ∧
        (∀ x ∈ grp scKey (datedCps cps) k, m ≤ eff_part_depth x.1) ∧
        (∃ x ∈ grp scKey (datedCps cps) k, m = eff_part_depth x.1)) ∧
    (∀ r : CompPriceRow, r.sell_depth_med = none → eff_part_depth r = 0) ∧
    (∀ (r : CompPriceRow) (sv : ℚ), r.sell_depth_med = some sv →
      eff_part_depth r = ((⌊sv / (r.qty : ℚ)⌋ : ℤ) : ℚ)) := by
  refine ⟨⟨scAgg k (grp scKey (datedCps cps) k), set_costs_mem cps hk, rfl, ?_⟩, ?_, ?_⟩
  · have hne : (grp scKey (datedCps cps) k).map (fun x => eff_part_depth x.1) ≠ [] := by
      intro h
      exact grp_nonempty_of_mem_keys scKey hk (List.map_eq_nil.mp h)
    obtain ⟨m, hm⟩ := minQ_isSome hne
    refine ⟨m, hm, ?_, ?_⟩
    · intro x hx
      exact minQ_le hm (List.mem_map.mpr ⟨x, hx, rfl⟩)
    · obtain ⟨x, hx, hxm⟩ := List.mem_map.mp (minQ_mem hm)
      exact ⟨x, hx, hxm.symm⟩
  · intro r h
    unfold eff_part_depth
    rw [h]
  · intro r sv h
    unfold eff_part_depth
    rw [h]

/-- Daily summaries for the C6 counterexample: part A has sell depth 10 on date
0, part B has its only daily row on date 1 (sell depth 5), the set trades on
both dates. -/
def c6daily : List DailyRow :=
  [⟨"part_a", "pc", 0, some 10, none, none, some 10⟩,
   ⟨"part_b", "pc", 1, some 4, none, none, some 5⟩,
   ⟨"s_prime_set", "pc", 0, none, some 35, none, none⟩]

/-- Components for the C6 counterexample: the set requires one part A and one
part B. -/
def c6comps : List CompNorm :=
  [⟨"s_prime_set", "pc", "part_a", 1⟩, ⟨"s_prime_set", "pc", "part_b", 1⟩]

/-- Counterexample to C6 as stated: on date 0 part B has no daily row, so its
(missing) sell depth does not contribute an effective depth of 0 — the
bottleneck on date 0 is 10 (part A alone), not min(10, 0) = 0: the absent part
is excluded from the minimum. -/
theorem c6_counterexample :
    ((set_costs (comp_prices c6comps (craftable_prime c6comps) c6daily)).map
      fun r => (scrKey r, r.min_part_eff_depth))
      = [(("s_prime_set", "pc", 0), some 10), (("s_prime_set", "pc", 1), some 5)] ∧
    (some (10 : ℚ) ≠ some (0 : ℚ)) := by
  have hcraft : craftable_prime c6comps = [("s_prime_set", "pc")] := by decide
  have hcps : comp_prices c6comps [("s_prime_set", "pc")] c6daily
      = [⟨"s_prime_set", "pc", "part_a", 1, some 0, some 10, none, some 10⟩,
         ⟨"s_prime_set", "pc", "part_b", 1, some 1, some 4, none, some 5⟩] := by decide
  rw [hcraft, hcps]
  constructor
  · norm_num [set_costs, groupBy, sortKeys, scAgg, grp, datedCps, scKey, scrKey,
      sumSkipNA, minQ, eff_part_depth, weighted_cost, eff_buy_price,
      List.insertionSort, List.orderedInsert, List.dedup,
      List.filterMap_cons, List.filterMap_nil, keyLe3z, strLt, strLtL]
  · intro h
    have : (10 : ℚ) = 0 := Option.some.injEq _ _ ▸ h
    norm_num at this

/-- Witness for the amended C6 at the counterexample input, at the date-0 group. -/
theorem c6_liquidity_bottleneck_witness :
    (∃ row ∈ set_costs (comp_prices c6comps (craftable_prime c6comps) c6daily),
      scrKey row = ("s_prime_set", "pc", 0) ∧
      ∃ m, row.min_part_eff_depth = some m ∧
        (∀ x ∈ grp scKey (datedCps (comp_prices c6comps (craftable_prime c6comps) c6daily))
            ("s_prime_set", "pc", 0), m ≤ eff_part_depth x.1) ∧
        (∃ x ∈ grp scKey (datedCps (comp_prices c6comps (craftable_prime c6comps) c6daily))
            ("s_prime_set", "pc", 0), m = eff_part_depth x.1)) ∧
    (∀ r : CompPriceRow, r.sell_depth_med = none → eff_part_depth r = 0) ∧
    (∀ (r : CompPriceRow) (sv : ℚ), r.sell_depth_med = some sv →
      eff_part_depth r = ((⌊sv / (r.qty : ℚ)⌋ : ℤ) : ℚ)) :=
  c6_liquidity_bottleneck
    (comp_prices c6comps (craftable_prime c6comps) c6daily)
    ("s_prime_set", "pc", 0) (by decide)

/-! C5 — KPI 0-100 normalization -/

/-- C5 (amended): when at least 5 sets have a latest KPI value and the 90th
percentile exceeds the 10th by enough to clear the 1e-9 denominator guard, the
scale maps the 10th percentile to kpi_0_100 = 0 and the 90th percentile to
kpi_0_100 = 80; every normalized value is clipped to [0, 1]; with fewer than 5
samples the scale falls back to the fixed range [0, max(1, observed max)].
When the two percentiles coincide the scale degenerates instead (see the
counterexample). -/
theorem c5_kpi_normalization (latest : List SetsDailyRow) (s : List ℚ)
    (_hs : s = latest.map kpi_daily_potential)
    (h5 : 5 ≤ s.length)
    (hlt : quantileLin s (1 / 10) < quantileLin s (9 / 10))
    (hgap : 1 / 1000000000
      ≤ (quantileLin s (9 / 10) - quantileLin s (1 / 10)) / (8 / 10)) :
    kpiScale s = (quantileLin s (1 / 10),
      quantileLin s (1 / 10)
        + (quantileLin s (9 / 10) - quantileLin s (1 / 10)) / (8 / 10)) ∧
    kpi_0_100 (kpiScale s).1 (kpiScale s).2 (quantileLin s (1 / 10)) = 0 ∧
    kpi_0_100 (kpiScale s).1 (kpiScale s).2 (quantileLin s (9 / 10)) = 80 ∧
    (∀ lo hi v, 0 ≤ normKpi lo hi v ∧ normKpi lo hi v ≤ 1) ∧
    (∀ l : List ℚ, l.length < 5 → kpiScale l = (0, max 1 (maxD l 1))) := by
  have hpair : kpiScale s = (quantileLin s (1 / 10),
      quantileLin s (1 / 10)
        + (quantileLin s (9 / 10) - quantileLin s (1 / 10)) / (8 / 10)) := by
    unfold kpiScale
    rw [if_pos h5, if_pos hlt]
  have hg : quantileLin s (9 / 10) - quantileLin s (1 / 10) ≠ 0 :=
    sub_ne_zero.mpr (ne_of_gt hlt)
  have hden : (kpiScale s).2 - (kpiScale s).1
      = (quantileLin s (9 / 10) - quantileLin s (1 / 10)) / (8 / 10) := by
    rw [hpair]
    ring
  refine ⟨hpair, ?_, ?_, ?_, ?_⟩
  · have hnorm : normKpi (kpiScale s).1 (kpiScale s).2 (quantileLin s (1 / 10)) = 0 := by
      unfold normKpi
      rw [hpair]
      simp
    unfold kpi_0_100
    rw [hnorm]
    norm_num [roundHalfEven]
  · have hmax : max (1 / 1000000000 : ℚ) ((kpiScale s).2 - (kpiScale s).1)
        = (quantileLin s (9 / 10) - quantileLin s (1 / 10)) / (8 / 10) := by
      rw [hden]
      exact max_eq_right hgap
    have hnorm : normKpi (kpiScale s).1 (kpiScale s).2 (quantileLin s (9 / 10)) = 8 / 10 := by
      unfold normKpi
      rw [hmax, hpair]
      have hq : (quantileLin s (9 / 10) - quantileLin s (1 / 10))
          / ((quantileLin s (9 / 10) - quantileLin s (1 / 10)) / (8 / 10)) = 8 / 10 := by
        field_simp
        ring
      rw [hq]
      norm_num
    unfold kpi_0_100
    rw [hnorm]
    norm_num [roundHalfEven]
  · intro lo hi v
    unfold normKpi
    exact ⟨le_min (by norm_num) (le_max_left 0 _), min_le_left _ _⟩
  · intro l hl
    unfold kpiScale
    rw [if_neg (not_le.mpr hl)]

/-- Latest cross-section for the C5 witness: five sets whose KPI daily
potentials are 0, 10, 20, 30, 40 (margin × volume cap 1). -/
def c5latest : List SetsDailyRow :=
  [⟨"s1", "pc", 0, none, none, some 1, none, none, some 1, some 0, none⟩,
   ⟨"s2", "pc", 0, none, none, some 1, none, none, some 1, some 10, none⟩,
   ⟨"s3", "pc", 0, none, none, some 1, none, none, some 1, some 20, none⟩,
   ⟨"s4", "pc", 0, none, none, some 1, none, none, some 1, some 30, none⟩,
   ⟨"s5", "pc", 0, none, none, some 1, none, none, some 1, some 40, none⟩]

/-- Witness for the amended C5: with the cross-section 0..40 the 10th percentile
is 4, the 90th is 36, and the theorem applies (4 maps to 0, 36 maps to 80). -/
theorem c5_kpi_normalization_witness :
    kpiScale [0, 10, 20, 30, 40]
      = (quantileLin [0, 10, 20, 30, 40] (1 / 10),
        quantileLin [0, 10, 20, 30, 40] (1 / 10)
          + (quantileLin [0, 10, 20, 30, 40] (9 / 10)
              - quantileLin [0, 10, 20, 30, 40] (1 / 10)) / (8 / 10)) ∧
    kpi_0_100 (kpiScale [0, 10, 20, 30, 40]).1 (kpiScale [0, 10, 20, 30, 40]).2
      (quantileLin [0, 10, 20, 30, 40] (1 / 10)) = 0 ∧
    kpi_0_100 (kpiScale [0, 10, 20, 30, 40]).1 (kpiScale [0, 10, 20, 30, 40]).2
      (quantileLin [0, 10, 20, 30, 40] (9 / 10)) = 80 ∧
    (∀ lo hi v, 0 ≤ normKpi lo hi v ∧ normKpi lo hi v ≤ 1) ∧
    (∀ l : List ℚ, l.length < 5 → kpiScale l = (0, max 1 (maxD l 1))) := by
  have hq10 : quantileLin [0, 10, 20, 30, 40] (1 / 10) = 4 := by
    norm_num [quantileLin, List.insertionSort, List.orderedInsert,
      show ((0 : ℤ).toNat) = 0 from rfl,
      show ([0, 10, 20, 30, 40] : List ℚ).getD 0 0 = 0 from rfl,
      show ([0, 10, 20, 30, 40] : List ℚ).getD 1 0 = 10 from rfl]
  have hq90 : quantileLin [0, 10, 20, 30, 40] (9 / 10) = 36 := by
    norm_num [quantileLin, List.insertionSort, List.orderedInsert,
      show ((3 : ℤ).toNat) = 3 from rfl,
      show ([0, 10, 20, 30, 40] : List ℚ).getD 3 0 = 30 from rfl,
      show ([0, 10, 20, 30, 40] : List ℚ).getD 4 0 = 40 from rfl]
  exact c5_kpi_normalization c5latest [0, 10, 20, 30, 40]
    (by norm_num [c5latest, kpi_daily_potential, daily_volume_cap])
    (by norm_num)
    (by rw [hq10, hq90]; norm_num)
    (by rw [hq10, hq90]; norm_num)

/-- Latest cross-section for the C5 counterexample: five sets all with KPI
daily potential 7. -/
def c5eq : List SetsDailyRow :=
  [⟨"s1", "pc", 0, none, none, some 1, none, none, some 1, some 7, none⟩,
   ⟨"s2", "pc", 0, none, none, some 1, none, none, some 1, some 7, none⟩,
   ⟨"s3", "pc", 0, none, none, some 1, none, none, some 1, some 7, none⟩,
   ⟨"s4", "pc", 0, none, none, some 1, none, none, some 1, some 7, none⟩,
   ⟨"s5", "pc", 0, none, none, some 1, none, none, some 1, some 7, none⟩]

/-- Counterexample to C5 as stated: with ≥ 5 sets all of whose latest KPI values
are 7, the 90th-percentile value (7) maps to kpi_0_100 = 0, not 80 — the
degenerate widening branch is taken. -/
theorem c5_counterexample :
    (c5eq.map kpi_daily_potential = [7, 7, 7, 7, 7]) ∧
    5 ≤ ([7, 7, 7, 7, 7] : List ℚ).length ∧
    quantileLin [7, 7, 7, 7, 7] (9 / 10) = 7 ∧
    kpiScale [7, 7, 7, 7, 7] = (7, 15) ∧
    kpi_0_100 (kpiScale [7, 7, 7, 7, 7]).1 (kpiScale [7, 7, 7, 7, 7]).2
      (quantileLin [7, 7, 7, 7, 7] (9 / 10)) = 0 ∧
    ((0 : ℤ) ≠ 80) := by
  have hq90 : quantileLin [7, 7, 7, 7, 7] (9 / 10) = 7 := by
    norm_num [quantileLin, List.insertionSort, List.orderedInsert,
      show ((3 : ℤ).toNat) = 3 from rfl,
      show ([7, 7, 7, 7, 7] : List ℚ).getD 3 0 = 7 from rfl,
      show ([7, 7, 7, 7, 7] : List ℚ).getD 4 0 = 7 from rfl]
  have hq10 : quantileLin [7, 7, 7, 7, 7] (1 / 10) = 7 := by
    norm_num [quantileLin, List.insertionSort, List.orderedInsert,
      show ((0 : ℤ).toNat) = 0 from rfl,
      show ([7, 7, 7, 7, 7] : List ℚ).getD 0 0 = 7 from rfl,
      show ([7, 7, 7, 7, 7] : List ℚ).getD 1 0 = 7 from rfl]
  have hscale : kpiScale [7, 7, 7, 7, 7] = (7, 15) := by
    unfold kpiScale
    rw [if_pos (by norm_num), hq10, hq90, if_neg (lt_irrefl 7)]
    norm_num
  refine ⟨by norm_num [c5eq, kpi_daily_potential, daily_volume_cap], by norm_num, hq90, hscale, ?_, by decide⟩
  rw [hscale, hq90]
  norm_num [kpi_0_100, normKpi, roundHalfEven]

/-! C4 — reconciliation and discrepancy flagging -/

theorem mkCmpRow_abs (r : SetsDailyRow) (snap : Option ℚ) :
    (mkCmpRow r snap).abs_diff = (oSub r.parts_cost_buy snap).map abs := rfl

theorem mkCmpRow_pc (r : SetsDailyRow) (snap : Option ℚ) :
    (mkCmpRow r snap).parts_cost_buy = r.parts_cost_buy := rfl

theorem mkCmpRow_rel (r : SetsDailyRow) (snap : Option ℚ) :
    (mkCmpRow r snap).rel_diff
      = match (oSub r.parts_cost_buy snap).map abs, r.parts_cost_buy with
        | some a, some c => if c = 0 then none else some (a / c)
        | _, _ => none := rfl

/-- C4 (amended): the snapshot parts cost per set is the groupby sum of
quantity × unit cost over the latest-parts rows (NaN skipped); every
reconciliation row records the absolute difference of the two cost estimates
and the relative difference against a non-zero Cost Model total; every flagged
row has relative difference above 5%; and the flag keeps at most the five
largest such rows — an above-tolerance row left unflagged is dominated by every
flagged row. The reconciliation is computed from the already-written outputs
and is never fatal: `runAnalytics` does not depend on it. -/
theorem c4_reconciliation (idx : List SetsDailyRow) (pl : List PartLatestRow) :
    (∀ srow ∈ snap_cost pl, srow.2.2
      = sumSkipNA ((grp plKey pl (srow.1, srow.2.1)).map
          fun r => r.unit_cost.map (· * (r.qty : ℚ)))) ∧
    (∀ c ∈ reconcile idx pl,
      c.abs_diff = (oSub c.parts_cost_buy c.snapshot_parts_cost).map abs ∧
      (∀ a q, c.abs_diff = some a → c.parts_cost_buy = some q → q ≠ 0 →
        c.rel_diff = some (a / q)) ∧
      (c.parts_cost_buy = none → c.rel_diff = none)) ∧
    (∀ f ∈ discrepancyFlag (reconcile idx pl),
      ∃ rv, f.rel_diff = some rv ∧ (1 : ℚ) / 20 < rv) ∧
    (discrepancyFlag (reconcile idx pl)).length ≤ 5 ∧
    (∀ cmp : List CmpRow, ∀ c ∈ cmp,
      ((match c.rel_diff with
        | some r => decide ((1 : ℚ) / 20 < r)
        | none => false) && c.abs_diff.isSome) = true →
      c ∉ discrepancyFlag cmp →
      ∀ f ∈ discrepancyFlag cmp, c.rel_diff.getD 0 ≤ f.rel_diff.getD 0) := by
  refine ⟨?_, ?_, ?_, ?_, ?_⟩
  · intro srow hs
    obtain ⟨k, _, rfl⟩ := (mem_groupBy keyLe2 plKey snapAgg pl).mp hs
    rfl
  · intro c hc
    obtain ⟨r, _, rfl⟩ := List.mem_map.mp hc
    refine ⟨rfl, ?_, ?_⟩
    · intro a q ha hq hq0
      rw [mkCmpRow_abs] at ha
      rw [mkCmpRow_pc] at hq
      rw [mkCmpRow_rel, ha, hq]
      show (if q = 0 then none else some (a / q)) = some (a / q)
      rw [if_neg hq0]
    · intro hnone
      rw [mkCmpRow_pc] at hnone
      rw [mkCmpRow_rel, hnone]
      rfl
  · intro f hf
    have hf' : f ∈ (reconcile idx pl).filter fun c =>
        (match c.rel_diff with
          | some r => decide ((1 : ℚ) / 20 < r)
          | none => false) && c.abs_diff.isSome :=
      ((List.perm_insertionSort relGe _).mem_iff).mp (List.mem_of_mem_take hf)
    have hcond := (List.mem_filter.mp hf').2
    have hcond' : (match f.rel_diff with
        | some r => decide ((1 : ℚ) / 20 < r)
        | none => false) = true ∧ f.abs_diff.isSome = true := Bool.and_eq_true _ _ ▸ hcond
    obtain ⟨h1, _⟩ := hcond'
    cases hrel : f.rel_diff with
    | none => rw [hrel] at h1; cases h1
    | some r =>
      rw [hrel] at h1
      exact ⟨r, rfl, of_decide_eq_true h1⟩
  · exact List.length_take_le 5 _
  · intro cmp c hc hcond hnot f hf
    have hsorted : List.Sorted relGe ((cmp.filter fun c =>
        (match c.rel_diff with
          | some r => decide ((1 : ℚ) / 20 < r)
          | none => false) && c.abs_diff.isSome).insertionSort relGe) :=
      List.sorted_insertionSort relGe _
    have hcL : c ∈ (cmp.filter fun c =>
        (match c.rel_diff with
          | some r => decide ((1 : ℚ) / 20 < r)
          | none => false) && c.abs_diff.isSome).insertionSort relGe :=
      ((List.perm_insertionSort relGe _).mem_iff).mpr (List.mem_filter.mpr ⟨hc, hcond⟩)
    rw [show ((cmp.filter fun c =>
        (match c.rel_diff with
          | some r => decide ((1 : ℚ) / 20 < r)
          | none => false) && c.abs_diff.isSome).insertionSort relGe)
      = ((cmp.filter fun c =>
        (match c.rel_diff with
          | some r => decide ((1 : ℚ) / 20 < r)
          | none => false) && c.abs_diff.isSome).insertionSort relGe).take 5
        ++ ((cmp.filter fun c =>
        (match c.rel_diff with
          | some r => decide ((1 : ℚ) / 20 < r)
          | none => false) && c.abs_diff.isSome).insertionSort relGe).drop 5
      from (List.take_append_drop 5 _).symm] at hcL hsorted
    have hdrop : c ∈ ((cmp.filter fun c =>
        (match c.rel_diff with
          | some r => decide ((1 : ℚ) / 20 < r)
          | none => false) && c.abs_diff.isSome).insertionSort relGe).drop 5 := by
      rcases List.mem_append.mp hcL with h | h
      · exact absurd h hnot
      · exact h
    exact (List.pairwise_append.mp hsorted).2.2 f hf c hdrop

/-- Sets index rows for the C4 counterexample: six sets, each with a Cost Model
parts cost of 1. -/
def c4idx : List SetsDailyRow :=
  [⟨"s1", "pc", 0, none, none, none, none, some 1, none, none, none⟩,
   ⟨"s2", "pc", 0, none, none, none, none, some 1, none, none, none⟩,
   ⟨"s3", "pc", 0, none, none, none, none, some 1, none, none, none⟩,
   ⟨"s4", "pc", 0, none, none, none, none, some 1, none, none, none⟩,
   ⟨"s5", "pc", 0, none, none, none, none, some 1, none, none, none⟩,
   ⟨"s6", "pc", 0, none, none, none, none, some 1, none, none, none⟩]

/-- Latest-parts rows for the C4 counterexample: snapshot costs 2..7, giving
relative differences 1..6 — six sets above the 5% tolerance. -/
def c4pl : List PartLatestRow :=
  [⟨"s1", "pc", "p", 1, some 2, none, none, none, 0, "SELL"⟩,
   ⟨"s2", "pc", "p", 1, some 3, none, none, none, 0, "SELL"⟩,
   ⟨"s3", "pc", "p", 1, some 4, none, none, none, 0, "SELL"⟩,
   ⟨"s4", "pc", "p", 1, some 5, none, none, none, 0, "SELL"⟩,
   ⟨"s5", "pc", "p", 1, some 6, none, none, none, 0, "SELL"⟩,
   ⟨"s6", "pc", "p", 1, some 7, none, none, none, 0, "SELL"⟩]

/-- Counterexample to C4 as stated: set s1 has a relative difference of 100%
(far above the 5% tolerance), yet it is not flagged — `nlargest(5, ...)` keeps
only the five worst offenders, not every set above tolerance. -/
theorem c4_counterexample :
    (∃ c ∈ reconcile c4idx c4pl, c.set_url = "s1" ∧ c.rel_diff = some 1 ∧
      (1 : ℚ) / 20 < 1 ∧ c.abs_diff = some 1) ∧
    (∀ f ∈ discrepancyFlag (reconcile c4idx c4pl), f.set_url ≠ "s1") := by
  have hkeys : sortKeys keyLe2 (c4pl.map plKey)
      = [("s1", "pc"), ("s2", "pc"), ("s3", "pc"), ("s4", "pc"), ("s5", "pc"),
         ("s6", "pc")] := by decide
  have hsnap : snap_cost c4pl
      = [("s1", "pc", 2), ("s2", "pc", 3), ("s3", "pc", 4), ("s4", "pc", 5),
         ("s5", "pc", 6), ("s6", "pc", 7)] := by
    have hg1 : grp plKey c4pl ("s1", "pc")
        = [⟨"s1", "pc", "p", 1, some 2, none, none, none, 0, "SELL"⟩] := by decide
    have hg2 : grp plKey c4pl ("s2", "pc")
        = [⟨"s2", "pc", "p", 1, some 3, none, none, none, 0, "SELL"⟩] := by decide
    have hg3 : grp plKey c4pl ("s3", "pc")
        = [⟨"s3", "pc", "p", 1, some 4, none, none, none, 0, "SELL"⟩] := by decide
    have hg4 : grp plKey c4pl ("s4", "pc")
        = [⟨"s4", "pc", "p", 1, some 5, none, none, none, 0, "SELL"⟩] := by decide
    have hg5 : grp plKey c4pl ("s5", "pc")
        = [⟨"s5", "pc", "p", 1, some 6, none, none, none, 0, "SELL"⟩] := by decide
    have hg6 : grp plKey c4pl ("s6", "pc")
        = [⟨"s6", "pc", "p", 1, some 7, none, none, none, 0, "SELL"⟩] := by decide
    rw [show snap_cost c4pl
        = (sortKeys keyLe2 (c4pl.map plKey)).map (fun k => snapAgg k (grp plKey c4pl k))
      from rfl, hkeys]
    simp only [List.map_cons, List.map_nil, hg1, hg2, hg3, hg4, hg5, hg6]
    norm_num [snapAgg, sumSkipNA, List.filterMap_cons, List.filterMap_nil]
  have hrec : reconcile c4idx c4pl
      = [⟨"s1", "pc", some 1, some 2, some 1, some 1⟩,
         ⟨"s2", "pc", some 1, some 3, some 2, some 2⟩,
         ⟨"s3", "pc", some 1, some 4, some 3, some 3⟩,
         ⟨"s4", "pc", some 1, some 5, some 4, some 4⟩,
         ⟨"s5", "pc", some 1, some 6, some 5, some 5⟩,
         ⟨"s6", "pc", some 1, some 7, some 6, some 6⟩] := by
    have hf1 : ((snap_cost c4pl).find? fun s => decide (s.1 = "s1" ∧ s.2.1 = "pc"))
        = some ("s1", "pc", 2) := by rw [hsnap]; decide
    have hf2 : ((snap_cost c4pl).find? fun s => decide (s.1 = "s2" ∧ s.2.1 = "pc"))
        = some ("s2", "pc", 3) := by rw [hsnap]; decide
    have hf3 : ((snap_cost c4pl).find? fun s => decide (s.1 = "s3" ∧ s.2.1 = "pc"))
        = some ("s3", "pc", 4) := by rw [hsnap]; decide
    have hf4 : ((snap_cost c4pl).find? fun s => decide (s.1 = "s4" ∧ s.2.1 = "pc"))
        = some ("s4", "pc", 5) := by rw [hsnap]; decide
    have hf5 : ((snap_cost c4pl).find? fun s => decide (s.1 = "s5" ∧ s.2.1 = "pc"))
        = some ("s5", "pc", 6) := by rw [hsnap]; decide
    have hf6 : ((snap_cost c4pl).find? fun s => decide (s.1 = "s6" ∧ s.2.1 = "pc"))
        = some ("s6", "pc", 7) := by rw [hsnap]; decide
    rw [reconcile]
    simp only [c4idx, List.map_cons, List.map_nil, hf1, hf2, hf3, hf4, hf5, hf6,
      Option.map_some']
    norm_num [mkCmpRow, oSub]
  have hflag : discrepancyFlag (reconcile c4idx c4pl)
      = [⟨"s6", "pc", some 1, some 7, some 6, some 6⟩,
         ⟨"s5", "pc", some 1, some 6, some 5, some 5⟩,
         ⟨"s4", "pc", some 1, some 5, some 4, some 4⟩,
         ⟨"s3", "pc", some 1, some 4, some 3, some 3⟩,
         ⟨"s2", "pc", some 1, some 3, some 2, some 2⟩] := by
    rw [hrec]
    rw [show discrepancyFlag
        [⟨"s1", "pc", some 1, some 2, some 1, some 1⟩,
         ⟨"s2", "pc", some 1, some 3, some 2, some 2⟩,
         ⟨"s3", "pc", some 1, some 4, some 3, some 3⟩,
         ⟨"s4", "pc", some 1, some 5, some 4, some 4⟩,
         ⟨"s5", "pc", some 1, some 6, some 5, some 5⟩,
         ⟨"s6", "pc", some 1, some 7, some 6, some 6⟩]
      = ((([⟨"s1", "pc", some 1, some 2, some 1, some 1⟩,
         ⟨"s2", "pc", some 1, some 3, some 2, some 2⟩,
         ⟨"s3", "pc", some 1, some 4, some 3, some 3⟩,
         ⟨"s4", "pc", some 1, some 5, some 4, some 4⟩,
         ⟨"s5", "pc", some 1, some 6, some 5, some 5⟩,
         ⟨"s6", "pc", some 1, some 7, some 6, some 6⟩] : List CmpRow).filter fun c =>
          (match c.rel_diff with
            | some r => decide ((1 : ℚ) / 20 < r)
            | none => false) && c.abs_diff.isSome).insertionSort relGe).take 5 from rfl]
    have hfilt : (([⟨"s1", "pc", some 1, some 2, some 1, some 1⟩,
         ⟨"s2", "pc", some 1, some 3, some 2, some 2⟩,
         ⟨"s3", "pc", some 1, some 4, some 3, some 3⟩,
         ⟨"s4", "pc", some 1, some 5, some 4, some 4⟩,
         ⟨"s5", "pc", some 1, some 6, some 5, some 5⟩,
         ⟨"s6", "pc", some 1, some 7, some 6, some 6⟩] : List CmpRow).filter fun c =>
          (match c.rel_diff with
            | some r => decide ((1 : ℚ) / 20 < r)
            | none => false) && c.abs_diff.isSome)
        = [⟨"s1", "pc", some 1, some 2, some 1, some 1⟩,
         ⟨"s2", "pc", some 1, some 3, some 2, some 2⟩,
         ⟨"s3", "pc", some 1, some 4, some 3, some 3⟩,
         ⟨"s4", "pc", some 1, some 5, some 4, some 4⟩,
         ⟨"s5", "pc", some 1, some 6, some 5, some 5⟩,
         ⟨"s6", "pc", some 1, some 7, some 6, some 6⟩] := by
      simp only [List.filter_cons, List.filter_nil,
        show decide ((1 : ℚ) / 20 < 1) = true from decide_eq_true (by norm_num),
        show decide ((1 : ℚ) / 20 < 2) = true from decide_eq_true (by norm_num),
        show decide ((1 : ℚ) / 20 < 3) = true from decide_eq_true (by norm_num),
        show decide ((1 : ℚ) / 20 < 4) = true from decide_eq_true (by norm_num),
        show decide ((1 : ℚ) / 20 < 5) = true from decide_eq_true (by norm_num),
        show decide ((1 : ℚ) / 20 < 6) = true from decide_eq_true (by norm_num),
        Option.isSome_some, Bool.and_self, if_true]
    rw [hfilt]
    decide
  constructor
  · refine ⟨⟨"s1", "pc", some 1, some 2, some 1, some 1⟩, ?_, rfl, rfl, by norm_num, rfl⟩
    rw [hrec]
    exact List.mem_cons_self _ _
  · intro f hf
    rw [hflag] at hf
    fin_cases hf <;> decide

/-- Witness for the amended C4 at the counterexample input. -/
theorem c4_reconciliation_witness :
    (∀ srow ∈ snap_cost c4pl, srow.2.2
      = sumSkipNA ((grp plKey c4pl (srow.1, srow.2.1)).map
          fun r => r.unit_cost.map (· * (r.qty : ℚ)))) ∧
    (∀ c ∈ reconcile c4idx c4pl,
      c.abs_diff = (oSub c.parts_cost_buy c.snapshot_parts_cost).map abs ∧
      (∀ a q, c.abs_diff = some a → c.parts_cost_buy = some q → q ≠ 0 →
        c.rel_diff = some (a / q)) ∧
      (c.parts_cost_buy = none → c.rel_diff = none)) ∧
    (∀ f ∈ discrepancyFlag (reconcile c4idx c4pl),
      ∃ rv, f.rel_diff = some rv ∧ (1 : ℚ) / 20 < rv) ∧
    (discrepancyFlag (reconcile c4idx c4pl)).length ≤ 5 ∧
    (∀ cmp : List CmpRow, ∀ c ∈ cmp,
      ((match c.rel_diff with
        | some r => decide ((1 : ℚ) / 20 < r)
        | none => false) && c.abs_diff.isSome) = true →
      c ∉ discrepancyFlag cmp →
      ∀ f ∈ discrepancyFlag cmp, c.rel_diff.getD 0 ≤ f.rel_diff.getD 0) :=
  c4_reconciliation c4idx c4pl

/-! C9 — behaviour on empty inputs -/

/-- C9 (amended): when either raw input table is empty or absent the analytics
core still terminates successfully and writes both outputs, but as zero-byte,
headerless files (`write_text("")` at lines 119-120), not as empty headered
tables. -/
theorem c9_empty_inputs (orders : List OrderRow) (compCsv : List CompCsvRow)
    (h : orders = [] ∨ compCsv = []) :
    runAnalytics orders compCsv = (.rawEmpty, .rawEmpty) ∧
    isHeadered (runAnalytics orders compCsv).1 = false ∧
    isHeadered (runAnalytics orders compCsv).2 = false := by
  have hempty : (orders.isEmpty || compCsv.isEmpty) = true := by
    rcases h with rfl | rfl
    · simp
    · simp
  have hrun : runAnalytics orders compCsv = (.rawEmpty, .rawEmpty) := by
    unfold runAnalytics
    rw [if_pos hempty]
  exact ⟨hrun, by rw [hrun]; rfl, by rw [hrun]; rfl⟩

/-- Raw components row for the C9 counterexample. -/
def c9comp : CompCsvRow := ⟨some "s_prime_set", some "pc", some "part_a", some 1⟩

/-- Counterexample to C9 as stated: with an empty order-book table and a
non-empty components table the core writes zero-byte files with no header line,
so the outputs are not well-typed headered tables. -/
theorem c9_counterexample :
    runAnalytics [] [c9comp] = (.rawEmpty, .rawEmpty) ∧
    isHeadered ((runAnalytics [] [c9comp]).1) = false ∧
    isHeadered ((runAnalytics [] [c9comp]).2) = false ∧
    (OutFile.rawEmpty : OutFile SetsDailyRow) ≠ OutFile.table setsIndexHeader [] := by
  refine ⟨rfl, rfl, rfl, ?_⟩
  intro h
  cases h

/-- Witness for the amended C9 at the counterexample input. -/
theorem c9_empty_inputs_witness :
    runAnalytics [] [c9comp] = (.rawEmpty, .rawEmpty) ∧
    isHeadered (runAnalytics [] [c9comp]).1 = false ∧
    isHeadered (runAnalytics [] [c9comp]).2 = false :=
  c9_empty_inputs [] [c9comp] (Or.inl rfl)
